import Mathlib

/-!
Verification of the interview-to-habr pipeline (stage pipeline and
project-state machine) against its specification.

The Python sources are shallowly embedded: pure functions become Lean
functions, the JSON-persisted project state becomes an explicit state
type, and the state-store operations become state-passing functions.
Fallible operations (`int()` parsing, `json.loads`, prompt resolution)
return `Option`.
-/

namespace Krabi

/-! ## Generic association-list helpers

Python `dict` preserves insertion order; an association list with
update-in-place / append-at-end semantics models it. -/

def assocGet {α : Type} (l : List (String × α)) (k : String) : Option α :=
  match l with
  | [] => none
  | (k', v) :: rest => if k' = k then some v else assocGet rest k

def assocSet {α : Type} (l : List (String × α)) (k : String) (v : α) :
    List (String × α) :=
  match l with
  | [] => [(k, v)]
  | (k', v') :: rest =>
    if k' = k then (k, v) :: rest else (k', v') :: assocSet rest k v

def assocDel {α : Type} (l : List (String × α)) (k : String) :
    List (String × α) :=
  match l with
  | [] => []
  | (k', v') :: rest =>
    if k' = k then rest else (k', v') :: assocDel rest k

def assocHas {α : Type} (l : List (String × α)) (k : String) : Bool :=
  (assocGet l k).isSome

/-! ## file_handlers.normalize_text

Source: `src/core/file_handlers.py`, `normalize_text`:
replace `\r\n` by `\n`, replace `\r` by `\n`, collapse every run of three
or more `\n` to exactly two (`re.sub(r'\n{3,}', '\n\n', text)`), then
`str.strip()`.  Modelled on `List Char`; `isPySpace` is the set of
characters Python's `str.isspace` accepts below U+0100 (the exotic
Unicode space separators above it are omitted — the idempotence proof
below is independent of the exact membership of the set). -/

def isPySpace (c : Char) : Bool :=
  [' ', '\t', '\n', '\r', '\x0b', '\x0c',
   '\x1c', '\x1d', '\x1e', '\x1f', '\x85', '\xa0'].contains c

/-- Model of `text.replace('\r\n', '\n')`: leftmost, non-overlapping. -/
def replaceCRLF : List Char → List Char
  | [] => []
  | [c] => [c]
  | c1 :: c2 :: rest =>
    if c1 = '\r' ∧ c2 = '\n' then '\n' :: replaceCRLF rest
    else c1 :: replaceCRLF (c2 :: rest)

/-- Model of `text.replace('\r', '\n')` (single characters, so a map). -/
def replaceCR (l : List Char) : List Char :=
  l.map (fun c => if c = '\r' then '\n' else c)

/-- Leading-newline run: returns (run length, remainder). -/
def splitRun : List Char → Nat × List Char
  | [] => (0, [])
  | c :: rest =>
    if c = '\n' then
      let p := splitRun rest
      (p.1 + 1, p.2)
    else (0, c :: rest)

theorem splitRun_snd_length_le (l : List Char) : (splitRun l).2.length ≤ l.length := by
  induction l with
  | nil => simp [splitRun]
  | cons c rest ih =>
    simp only [splitRun]
    split
    · simpa using Nat.le_trans ih (Nat.le_succ _)
    · simp

theorem splitRun_cons_nl_lt (cs : List Char) :
    (splitRun ('\n' :: cs)).2.length < cs.length + 1 := by
  simp only [splitRun, if_pos rfl]
  exact Nat.lt_succ_of_le (splitRun_snd_length_le cs)

/-- Model of `re.sub(r'\n{3,}', '\n\n', text)`: every maximal run of
newlines of length ≥ 3 is replaced by exactly two newlines; shorter runs
are kept. -/
def collapseNl : List Char → List Char
  | [] => []
  | c :: cs =>
    if _h : c = '\n' then
      List.replicate (min (splitRun (c :: cs)).1 2) '\n' ++
        collapseNl (splitRun (c :: cs)).2
    else c :: collapseNl cs
termination_by l => l.length
decreasing_by
  · subst ‹_ = '\n'›
    simpa using splitRun_cons_nl_lt _
  · simp

/-- Model of `str.strip()`. -/
def stripList (l : List Char) : List Char :=
  (((l.dropWhile isPySpace).reverse.dropWhile isPySpace)).reverse

/-- Model of `file_handlers.normalize_text`. -/
def normalize_text (s : String) : String :=
  String.mk (stripList (collapseNl (replaceCR (replaceCRLF s.data))))

/-! Properties of the normalization steps, used for the idempotence claim. -/

/-- The list contains a run of three consecutive newlines. -/
def HasTriple (l : List Char) : Prop :=
  ∃ pre suf, l = pre ++ '\n' :: '\n' :: '\n' :: suf

theorem noTriple_nil : ¬ HasTriple [] := by
  rintro ⟨pre, suf, h⟩
  have h2 := congrArg List.length h
  simp only [List.length_nil, List.length_append, List.length_cons] at h2
  omega

theorem hasTriple_append_left {b : List Char} (a : List Char) (h : HasTriple b) :
    HasTriple (a ++ b) := by
  obtain ⟨pre, suf, rfl⟩ := h
  exact ⟨a ++ pre, suf, by simp⟩

theorem hasTriple_cons_elim {c : Char} {w : List Char} (h : HasTriple (c :: w)) :
    (c = '\n' ∧ ∃ suf, w = '\n' :: '\n' :: suf) ∨ HasTriple w := by
  obtain ⟨pre, suf, hpre⟩ := h
  cases pre with
  | nil =>
    simp only [List.nil_append, List.cons.injEq] at hpre
    exact Or.inl ⟨hpre.1, suf, hpre.2⟩
  | cons p ps =>
    simp only [List.cons_append, List.cons.injEq] at hpre
    exact Or.inr ⟨ps, suf, hpre.2⟩

theorem hasTriple_reverse {l : List Char} (h : HasTriple l.reverse) : HasTriple l := by
  obtain ⟨pre, suf, hpre⟩ := h
  refine ⟨suf.reverse, pre.reverse, ?_⟩
  have := congrArg List.reverse hpre
  simpa using this

theorem splitRun_decomp (l : List Char) :
    l = List.replicate (splitRun l).1 '\n' ++ (splitRun l).2 := by
  induction l with
  | nil => simp [splitRun]
  | cons c rest ih =>
    simp only [splitRun]
    split
    · subst ‹c = '\n'›
      simpa [List.replicate_succ] using ih
    · simp

theorem splitRun_snd_head (l : List Char) {c : Char} {t : List Char}
    (h : (splitRun l).2 = c :: t) : c ≠ '\n' := by
  induction l with
  | nil => simp [splitRun] at h
  | cons d rest ih =>
    simp only [splitRun] at h
    revert h
    split
    · intro h
      exact ih h
    · intro h
      injection h with h1 _
      subst h1
      assumption

theorem splitRun_fst_pos (cs : List Char) : 1 ≤ (splitRun ('\n' :: cs)).1 := by
  simp only [splitRun, if_pos rfl]
  exact Nat.succ_le_succ (Nat.zero_le _)

theorem collapseNl_nil : collapseNl [] = [] := by
  rw [collapseNl]

theorem collapseNl_cons_nl (cs : List Char) :
    collapseNl ('\n' :: cs) =
      List.replicate (min (splitRun ('\n' :: cs)).1 2) '\n' ++
        collapseNl (splitRun ('\n' :: cs)).2 := by
  rw [collapseNl]
  simp

theorem collapseNl_cons {c : Char} (cs : List Char) (h : c ≠ '\n') :
    collapseNl (c :: cs) = c :: collapseNl cs := by
  rw [collapseNl]
  simp [h]

theorem collapseNl_head (z : List Char)
    (hz : ∀ c t, z = c :: t → c ≠ '\n') :
    ∀ c t, collapseNl z = c :: t → c ≠ '\n' := by
  intro c t hct
  cases z with
  | nil => rw [collapseNl_nil] at hct; cases hct
  | cons d ds =>
    have hd : d ≠ '\n' := hz d ds rfl
    rw [collapseNl_cons ds hd] at hct
    injection hct with h1 _
    subst h1
    exact hd

theorem noTriple_pad (k : Nat) (hk : k ≤ 2) (z : List Char)
    (hz : ¬ HasTriple z) (hzh : ∀ c t, z = c :: t → c ≠ '\n') :
    ¬ HasTriple (List.replicate k '\n' ++ z) := by
  interval_cases k
  · simpa using hz
  · intro h
    simp only [List.replicate_succ, List.replicate_zero, List.nil_append,
      List.cons_append] at h
    rcases hasTriple_cons_elim h with ⟨_, suf, hsuf⟩ | h2
    · exact hzh '\n' ('\n' :: suf) hsuf rfl
    · exact hz h2
  · intro h
    simp only [List.replicate_succ, List.replicate_zero, List.nil_append,
      List.cons_append] at h
    rcases hasTriple_cons_elim h with ⟨_, suf, hsuf⟩ | h2
    · injection hsuf with _ hsuf2
      exact hzh '\n' suf hsuf2 rfl
    · rcases hasTriple_cons_elim h2 with ⟨_, suf, hsuf⟩ | h3
      · exact hzh '\n' ('\n' :: suf) hsuf rfl
      · exact hz h3

theorem collapseNl_noTriple (l : List Char) : ¬ HasTriple (collapseNl l) := by
  induction l using collapseNl.induct with
  | case1 =>
    rw [collapseNl_nil]
    exact noTriple_nil
  | case2 cs ih =>
    rw [collapseNl_cons_nl]
    have hhead : ∀ c t, (splitRun ('\n' :: cs)).2 = c :: t → c ≠ '\n' :=
      fun c t ht => splitRun_snd_head _ ht
    exact noTriple_pad _ (Nat.min_le_right _ _) _ ih
      (collapseNl_head _ hhead)
  | case3 c cs h ih =>
    rw [collapseNl_cons cs h]
    intro htr
    rcases hasTriple_cons_elim htr with ⟨hc, _⟩ | h2
    · exact h hc
    · exact ih h2

theorem replicate_triple {r : Nat} (hr : 3 ≤ r) :
    List.replicate r '\n' = '\n' :: '\n' :: '\n' :: List.replicate (r - 3) '\n' := by
  obtain ⟨k, rfl⟩ : ∃ k, r = k + 3 := ⟨r - 3, by omega⟩
  have h3 : k + 3 - 3 = k := by omega
  rw [h3, Nat.add_comm k 3, List.replicate_add]
  rfl

theorem collapseNl_eq_self {l : List Char} (h : ¬ HasTriple l) : collapseNl l = l := by
  induction l using collapseNl.induct with
  | case1 => exact collapseNl_nil
  | case2 cs ih =>
    rw [collapseNl_cons_nl]
    have hdecomp := splitRun_decomp ('\n' :: cs)
    have hr2 : (splitRun ('\n' :: cs)).1 ≤ 2 := by
      by_contra hgt
      apply h
      rw [hdecomp, replicate_triple (by omega)]
      exact ⟨[], List.replicate ((splitRun ('\n' :: cs)).1 - 3) '\n' ++
        (splitRun ('\n' :: cs)).2, by simp⟩
    have hrest : ¬ HasTriple (splitRun ('\n' :: cs)).2 := by
      intro h2
      exact h (hdecomp ▸ hasTriple_append_left _ h2)
    rw [ih hrest, Nat.min_eq_left hr2]
    exact hdecomp.symm
  | case3 c cs hc ih =>
    rw [collapseNl_cons cs hc]
    have : ¬ HasTriple cs := fun h2 => h (hasTriple_append_left [c] h2)
    rw [ih this]

theorem collapseNl_mem {a : Char} {l : List Char} (h : a ∈ collapseNl l) :
    a ∈ l ∨ a = '\n' := by
  induction l using collapseNl.induct with
  | case1 => rw [collapseNl_nil] at h; cases h
  | case2 cs ih =>
    rw [collapseNl_cons_nl] at h
    rcases List.mem_append.mp h with hmem | hmem
    · exact Or.inr (List.eq_of_mem_replicate hmem)
    · rcases ih hmem with hin | hnl
      · refine Or.inl ?_
        have := splitRun_decomp ('\n' :: cs)
        rw [this]
        exact List.mem_append.mpr (Or.inr hin)
      · exact Or.inr hnl
  | case3 c cs hc ih =>
    rw [collapseNl_cons cs hc] at h
    rcases List.mem_cons.mp h with rfl | hmem
    · exact Or.inl (List.mem_cons_self _ _)
    · rcases ih hmem with hin | hnl
      · exact Or.inl (List.mem_cons_of_mem _ hin)
      · exact Or.inr hnl

/-! Properties of `stripList`. -/

theorem dropWhile_head_false (p : Char → Bool) (l : List Char) {c : Char}
    {t : List Char} (h : l.dropWhile p = c :: t) : p c = false := by
  induction l with
  | nil => simp [List.dropWhile] at h
  | cons d ds ih =>
    rw [List.dropWhile_cons] at h
    revert h
    split
    · exact ih
    · intro h
      injection h with h1 _
      subst h1
      simp_all

theorem dropWhile_eq_self (p : Char → Bool) (l : List Char)
    (h : ∀ c t, l = c :: t → p c = false) : l.dropWhile p = l := by
  cases l with
  | nil => rfl
  | cons c t => rw [List.dropWhile_cons, h c t rfl]; simp

theorem stripList_reverse_head {l : List Char} {c : Char} {t : List Char}
    (h : (stripList l).reverse = c :: t) : isPySpace c = false := by
  rw [stripList, List.reverse_reverse] at h
  exact dropWhile_head_false _ _ h

theorem stripList_head {l : List Char} {c : Char} {t : List Char}
    (h : stripList l = c :: t) : isPySpace c = false := by
  rw [stripList] at h
  have hu := List.takeWhile_append_dropWhile isPySpace (l.dropWhile isPySpace).reverse
  have hrev := congrArg List.reverse hu
  rw [List.reverse_append, List.reverse_reverse] at hrev
  rw [h] at hrev
  exact dropWhile_head_false isPySpace l hrev.symm

theorem stripList_eq_self (z : List Char)
    (h1 : ∀ c t, z = c :: t → isPySpace c = false)
    (h2 : ∀ c t, z.reverse = c :: t → isPySpace c = false) :
    stripList z = z := by
  rw [stripList, dropWhile_eq_self _ _ h1, dropWhile_eq_self _ _ h2,
    List.reverse_reverse]

theorem stripList_idem (l : List Char) : stripList (stripList l) = stripList l := by
  refine stripList_eq_self _ (fun c t h => stripList_head h)
    (fun c t h => stripList_reverse_head h)

theorem stripList_noTriple {l : List Char} (h : ¬ HasTriple l) :
    ¬ HasTriple (stripList l) := by
  intro hs
  apply h
  rw [stripList] at hs
  have h1 : HasTriple ((l.dropWhile isPySpace).reverse.dropWhile isPySpace) :=
    hasTriple_reverse (by simpa using hs)
  have h2 : HasTriple (l.dropWhile isPySpace).reverse := by
    have := List.takeWhile_append_dropWhile isPySpace (l.dropWhile isPySpace).reverse
    rw [← this]
    exact hasTriple_append_left _ h1
  have h3 : HasTriple (l.dropWhile isPySpace) := hasTriple_reverse (by simpa using h2)
  have := List.takeWhile_append_dropWhile isPySpace l
  rw [← this]
  exact hasTriple_append_left _ h3

theorem stripList_mem {a : Char} {l : List Char} (h : a ∈ stripList l) : a ∈ l := by
  rw [stripList, List.mem_reverse] at h
  have h1 : a ∈ (l.dropWhile isPySpace).reverse := by
    have := List.takeWhile_append_dropWhile isPySpace (l.dropWhile isPySpace).reverse
    rw [← this]
    exact List.mem_append.mpr (Or.inr h)
  rw [List.mem_reverse] at h1
  have := List.takeWhile_append_dropWhile isPySpace l
  rw [← this]
  exact List.mem_append.mpr (Or.inr h1)

/-! Properties of the carriage-return replacements. -/

theorem replaceCR_noCR (l : List Char) : '\r' ∉ replaceCR l := by
  intro h
  rw [replaceCR] at h
  obtain ⟨b, _, hb⟩ := List.mem_map.mp h
  by_cases hbr : b = '\r'
  · rw [if_pos hbr] at hb
    exact absurd hb (by decide)
  · rw [if_neg hbr] at hb
    exact hbr hb

theorem replaceCR_eq_self {l : List Char} (h : '\r' ∉ l) : replaceCR l = l := by
  rw [replaceCR]
  conv_rhs => rw [← List.map_id l]
  refine List.map_congr_left ?_
  intro a ha
  have : a ≠ '\r' := fun e => h (e ▸ ha)
  simp [this]

theorem replaceCRLF_eq_self : ∀ {l : List Char}, '\r' ∉ l → replaceCRLF l = l
  | [], _ => rfl
  | [c], _ => rfl
  | c1 :: c2 :: rest, h => by
    have hc1 : c1 ≠ '\r' := fun e => h (e ▸ List.mem_cons_self _ _)
    rw [replaceCRLF, if_neg (fun hand => hc1 hand.1)]
    rw [replaceCRLF_eq_self (fun hm => h (List.mem_cons_of_mem _ hm))]

theorem C10_core (y : List Char) (hy : ∃ l : List Char,
    y = stripList (collapseNl (replaceCR l))) :
    stripList (collapseNl (replaceCR (replaceCRLF y))) = y := by
  obtain ⟨l, rfl⟩ := hy
  set y := stripList (collapseNl (replaceCR l)) with hydef
  have hnoCR : '\r' ∉ y := by
    intro h
    have h1 := stripList_mem h
    rcases collapseNl_mem h1 with h2 | h2
    · exact replaceCR_noCR l h2
    · exact absurd h2 (by decide)
  have hnoTriple : ¬ HasTriple y :=
    stripList_noTriple (collapseNl_noTriple (replaceCR l))
  rw [replaceCRLF_eq_self hnoCR, replaceCR_eq_self hnoCR,
    collapseNl_eq_self hnoTriple, hydef, stripList_idem]

/-! ## JSON values

JSON trees as produced by `json.loads` and consumed by `json.dumps`.
Numbers are modelled as integers: every number appearing in the pipeline's
JSON artifacts (section ids, token counts) is an integer. -/

inductive Json where
  | null : Json
  | bool (b : Bool) : Json
  | num (n : Int) : Json
  | str (s : String) : Json
  | arr (elems : List Json) : Json
  | obj (fields : List (String × Json)) : Json

/-- Python `str.join` on a list of strings. -/
def joinSep (sep : String) : List String → String
  | [] => ""
  | [x] => x
  | x :: rest => x ++ sep ++ joinSep sep rest

/-! ### json.dumps with `indent=2, ensure_ascii=False` -/

def hexChar (n : Nat) : Char :=
  if n < 10 then Char.ofNat (48 + n) else Char.ofNat (87 + n)

def escapeJsonChar (c : Char) : String :=
  if c = '"' then "\\\""
  else if c = '\\' then "\\\\"
  else if c = '\n' then "\\n"
  else if c = '\t' then "\\t"
  else if c = '\r' then "\\r"
  else if c = '\x08' then "\\b"
  else if c = '\x0c' then "\\f"
  else if c.toNat < 32 then
    "\\u00" ++ String.mk [hexChar (c.toNat / 16), hexChar (c.toNat % 16)]
  else String.mk [c]

def escapeJsonString (s : String) : String :=
  String.join (s.data.map escapeJsonChar)

def indentStr (level : Nat) : String :=
  String.mk (List.replicate (2 * level) ' ')

mutual

def dumpsV : Json → Nat → String
  | .null, _ => "null"
  | .bool true, _ => "true"
  | .bool false, _ => "false"
  | .num n, _ => toString n
  | .str s, _ => "\"" ++ escapeJsonString s ++ "\""
  | .arr [], _ => "[]"
  | .arr (e :: es), level =>
    "[\n" ++ joinSep ",\n" (dumpsItems (e :: es) (level + 1)) ++ "\n" ++
      indentStr level ++ "]"
  | .obj [], _ => "\x7b\x7d"
  | .obj (f :: fs), level =>
    "\x7b\n" ++ joinSep ",\n" (dumpsFieldItems (f :: fs) (level + 1)) ++ "\n" ++
      indentStr level ++ "\x7d"

def dumpsItems : List Json → Nat → List String
  | [], _ => []
  | e :: es, level =>
    (indentStr level ++ dumpsV e level) :: dumpsItems es level

def dumpsFieldItems : List (String × Json) → Nat → List String
  | [], _ => []
  | (k, v) :: fs, level =>
    (indentStr level ++ "\"" ++ escapeJsonString k ++ "\": " ++ dumpsV v level) ::
      dumpsFieldItems fs level

end

/-- Model of `json.dumps(data, ensure_ascii=False, indent=2)`. -/
def jsonDumps2 (j : Json) : String := dumpsV j 0

/-! ### json.loads -/

def isJsonWs (c : Char) : Bool :=
  [' ', '\t', '\n', '\r'].contains c

def skipWs (l : List Char) : List Char := l.dropWhile isJsonWs

def escPairs : List (Char × Char) :=
  [('"', '"'), ('\\', '\\'), ('/', '/'), ('n', '\n'),
   ('t', '\t'), ('r', '\r'), ('b', '\x08'), ('f', '\x0c')]

def escChar (c : Char) : Option Char :=
  (escPairs.find? (fun p => p.1 == c)).map Prod.snd

def hexVal (c : Char) : Option Nat :=
  if '0' ≤ c ∧ c ≤ '9' then some (c.toNat - 48)
  else if 'a' ≤ c ∧ c ≤ 'f' then some (c.toNat - 87)
  else if 'A' ≤ c ∧ c ≤ 'F' then some (c.toNat - 55)
  else none

/-- String body after the opening quote; returns (content, remainder). -/
def parseStringBody : List Char → Option (List Char × List Char)
  | [] => none
  | '"' :: rest => some ([], rest)
  | '\\' :: 'u' :: h1 :: h2 :: h3 :: h4 :: rest => do
    let v1 ← hexVal h1
    let v2 ← hexVal h2
    let v3 ← hexVal h3
    let v4 ← hexVal h4
    let p ← parseStringBody rest
    some (Char.ofNat (((v1 * 16 + v2) * 16 + v3) * 16 + v4) :: p.1, p.2)
  | '\\' :: e :: rest => do
    let c ← escChar e
    let p ← parseStringBody rest
    some (c :: p.1, p.2)
  | c :: rest => do
    let p ← parseStringBody rest
    some (c :: p.1, p.2)

def isDigit (c : Char) : Bool := '0' ≤ c && c ≤ '9'

def digitsToNat (l : List Char) : Nat :=
  l.foldl (fun acc c => acc * 10 + (c.toNat - 48)) 0

def parseDigits (l : List Char) : Option (Nat × List Char) :=
  let ds := l.takeWhile isDigit
  if ds.isEmpty then none else some (digitsToNat ds, l.dropWhile isDigit)

mutual

def parseValue : Nat → List Char → Option (Json × List Char)
  | 0, _ => none
  | Nat.succ fuel, l =>
    match skipWs l with
    | '"' :: rest =>
      match parseStringBody rest with
      | some (cs, r) => some (Json.str (String.mk cs), r)
      | none => none
    | '\x7b' :: rest =>
      match skipWs rest with
      | '\x7d' :: r2 => some (Json.obj [], r2)
      | _ =>
        match parseMembers fuel rest with
        | some (fields, r2) => some (Json.obj fields, r2)
        | none => none
    | '[' :: rest =>
      match skipWs rest with
      | ']' :: r2 => some (Json.arr [], r2)
      | _ =>
        match parseElems fuel rest with
        | some (elems, r2) => some (Json.arr elems, r2)
        | none => none
    | 't' :: 'r' :: 'u' :: 'e' :: rest => some (Json.bool true, rest)
    | 'f' :: 'a' :: 'l' :: 's' :: 'e' :: rest => some (Json.bool false, rest)
    | 'n' :: 'u' :: 'l' :: 'l' :: rest => some (Json.null, rest)
    | '-' :: rest =>
      match parseDigits rest with
      | some (n, r) => some (Json.num (-(n : Int)), r)
      | none => none
    | l2 =>
      match parseDigits l2 with
      | some (n, r) => some (Json.num (n : Int), r)
      | none => none

def parseMembers : Nat → List Char → Option (List (String × Json) × List Char)
  | 0, _ => none
  | Nat.succ fuel, l =>
    match skipWs l with
    | '"' :: rest =>
      match parseStringBody rest with
      | none => none
      | some (key, r1) =>
        match skipWs r1 with
        | ':' :: r2 =>
          match parseValue fuel r2 with
          | none => none
          | some (v, r3) =>
            match skipWs r3 with
            | ',' :: r4 =>
              match parseMembers fuel r4 with
              | some (fields, r5) => some ((String.mk key, v) :: fields, r5)
              | none => none
            | '\x7d' :: r4 => some ([(String.mk key, v)], r4)
            | _ => none
        | _ => none
    | _ => none

def parseElems : Nat → List Char → Option (List Json × List Char)
  | 0, _ => none
  | Nat.succ fuel, l =>
    match parseValue fuel l with
    | none => none
    | some (v, r1) =>
      match skipWs r1 with
      | ',' :: r2 =>
        match parseElems fuel r2 with
        | some (elems, r3) => some (v :: elems, r3)
        | none => none
      | ']' :: r2 => some ([v], r2)
      | _ => none

end

/-- Model of `json.loads` (`None` models a raised `JSONDecodeError`). -/
def jsonLoads (s : String) : Option Json :=
  match parseValue (s.data.length + 1) s.data with
  | some (v, rest) => if (skipWs rest).isEmpty then some v else none
  | none => none

/-! ## Stage 4 JSON extraction and validation

Source: `src/stages/s04_plan.py`, `PlanStage._extract_json` and
`PlanStage._validate_plan`. -/

/-- Lazy part of the fence pattern: the shortest group such that the
remainder matches `\n?````` (for each candidate length the greedy `\n?`
first tries to consume a newline). -/
def lazyGroupGo : List Char → List Char → Option (List Char)
  | acc, rem =>
    if (match rem with
        | '\n' :: r => ("```".data).isPrefixOf r
        | _ => false) then some acc.reverse
    else if ("```".data).isPrefixOf rem then some acc.reverse
    else
      match rem with
      | [] => none
      | c :: r => lazyGroupGo (c :: acc) r

/-- Match `re.search(r'```(?:json)?\s*\n?(.*?)\n?```', ..., re.DOTALL)`
anchored at the head of `l`, returning the group.  The greedy
`(?:json)?`, `\s*` and first `\n?` are folded into unconditional
consumption: their characters contain no backtick, so consuming them
maximally (Python's backtracking preference) never loses a closing
fence, and the match succeeds iff one exists downstream. -/
def fenceMatchAt (l : List Char) : Option (List Char) :=
  if ("```".data).isPrefixOf l then
    let r1 := l.drop 3
    let r2 := if ("json".data).isPrefixOf r1 then r1.drop 4 else r1
    lazyGroupGo [] (r2.dropWhile isPySpace)
  else none

/-- Leftmost fence match anywhere in the text. -/
def searchFence : List Char → Option (List Char)
  | [] => none
  | c :: rest =>
    match fenceMatchAt (c :: rest) with
    | some g => some g
    | none => searchFence rest

/-- Model of `re.search(r'\{.*\}', text, re.DOTALL)`: from the first
opening brace to the last closing brace after it (greedy `.*`). -/
def searchBraces (l : List Char) : Option (List Char) :=
  let t := l.dropWhile (fun c => !(c == '\x7b'))
  match t with
  | [] => none
  | _ :: _ =>
    let rtrim := (t.reverse.dropWhile (fun c => !(c == '\x7d'))).reverse
    if 2 ≤ rtrim.length then some rtrim else none

/-- Text-selection part of `PlanStage._extract_json`: fenced code block,
else first-to-last brace span, else the whole text. -/
def extract_json_text (l : List Char) : List Char :=
  match searchFence l with
  | some g => g
  | none =>
    match searchBraces l with
    | some g => g
    | none => l

/-- Model of `PlanStage._extract_json` (extraction then `json.loads`;
`none` models the raised decode error). -/
def extract_json (text : String) : Option Json :=
  jsonLoads (String.mk (extract_json_text text.data))

/-- Python substring test (`needle in s`). -/
def isSubListB (pat : List Char) : List Char → Bool
  | [] => pat.isPrefixOf ([] : List Char)
  | c :: rest => pat.isPrefixOf (c :: rest) || isSubListB pat rest

/-- Python `needle in j` for a string needle against a parsed JSON value:
key test on dicts, membership on lists, substring on strings; `none`
models the `TypeError` raised on other types. -/
def pyInStr (needle : String) (j : Json) : Option Bool :=
  match j with
  | .obj fields => some (assocHas fields needle)
  | .arr elems =>
    some (elems.any (fun e =>
      match e with
      | .str s => s == needle
      | _ => false))
  | .str s => some (isSubListB needle.data s.data)
  | _ => none

/-- Python `j[key]` for a string key; `none` models `KeyError`/`TypeError`. -/
def getItemStr (j : Json) (key : String) : Option Json :=
  match j with
  | .obj fields => assocGet fields key
  | _ => none

/-- Per-section loop of `_validate_plan`: each section must contain both
`title` and `key_points` (presence only; emptiness is not checked). -/
def validateSections : List Json → Option Bool
  | [] => some true
  | s :: rest =>
    match pyInStr "title" s with
    | none => none
    | some false => some false
    | some true =>
      match pyInStr "key_points" s with
      | none => none
      | some false => some false
      | some true => validateSections rest

/-- Model of `PlanStage._validate_plan` (`none` models a raised
`TypeError` from a non-container operand of `in`). -/
def validate_plan (plan : Json) : Option Bool :=
  match pyInStr "title" plan with
  | none => none
  | some false => some false
  | some true =>
    match pyInStr "sections" plan with
    | none => none
    | some false => some false
    | some true =>
      match getItemStr plan "sections" with
      | none => none
      | some sections =>
        match sections with
        | .arr elems =>
          if elems.length = 0 then some false
          else validateSections elems
        | _ => some false

/-- Modelled from the spec: the ArticlePlan invariant of §3 — a title is
present, there is at least one section, and every section has a non-empty
title and a non-empty key-point list.  (No function in the source checks
non-emptiness; this definition exists to compare the spec's invariant
with `_validate_plan`.) -/
def specArticlePlanInvariant (plan : Json) : Bool :=
  match plan with
  | .obj fields =>
    assocHas fields "title" &&
    (match assocGet fields "sections" with
     | some (.arr elems) =>
       !elems.isEmpty &&
       elems.all (fun s =>
         match s with
         | .obj sf =>
           (match assocGet sf "title" with
            | some (.str t) => !(t == "")
            | _ => false) &&
           (match assocGet sf "key_points" with
            | some (.arr ps) => !ps.isEmpty
            | _ => false)
         | _ => false)
     | _ => false)
  | _ => false

/-! ## Project state (core/state_manager.py)

`ProjectState` is a pydantic model whose `pipeline`, `materials` and
`statistics` fields are plain dicts with the fixed shapes produced by
`create_new` and the update operations; those shapes are embedded as
typed structures.  `config` and `input` stay opaque JSON objects.
Timestamps are ISO-format strings (`datetime.isoformat` round-trips
through `fromisoformat`, so the string is a faithful carrier); every
operation that ends in `save()` stamps `updated_at` with the current
time, which the model passes explicitly as `now`. -/

structure StageRec where
  status : String := ""
  started_at : Option String := none
  completed_at : Option String := none
  output_file : Option (Option String) := none
  tokens_used : Option Nat := none
  error_message : Option String := none
  progress : Option (Nat × Nat) := none
deriving DecidableEq

/-- Keyword arguments passed to `update_stage` at its call sites
(`base.py` passes `output_file`/`tokens_used` on completion,
`error_message` on failure and `progress` from `update_progress`);
`some v` means the keyword is present with value `v`. -/
structure Extra where
  output_file : Option (Option String) := none
  tokens_used : Option Nat := none
  error_message : Option String := none
  progress : Option (Nat × Nat) := none

def mergeExtra (r : StageRec) (e : Extra) : StageRec :=
  let r1 := match e.output_file with
    | some v => { r with output_file := some v }
    | none => r
  let r2 := match e.tokens_used with
    | some v => { r1 with tokens_used := some v }
    | none => r1
  let r3 := match e.error_message with
    | some v => { r2 with error_message := some v }
    | none => r2
  match e.progress with
  | some v => { r3 with progress := some v }
  | none => r3

structure PipelineState where
  current_stage : Nat
  stages : List (String × StageRec)
deriving DecidableEq

structure GeneratedRec where
  id : String
  file : String
  generated_at : String
deriving DecidableEq

structure Materials where
  selected : List String
  generated : List GeneratedRec
deriving DecidableEq

structure Statistics where
  total_tokens_used : Nat
  total_api_calls : Nat
  total_time_seconds : Nat
deriving DecidableEq

structure ProjectState where
  version : String := "1.0"
  project_name : String
  created_at : String
  updated_at : String
  config : Json
  input : Json
  pipeline : PipelineState
  materials : Materials
  statistics : Statistics

/-- Source: `StateManager.create_new`, the `stage_names` list. -/
def stage_names : List String :=
  ["load", "format", "compare", "plan", "write",
   "merge", "edit", "analyze", "select", "generate"]

/-- The ten stage records seeded by `create_new`:
keys `f"{i}_{name}"` for `i, name in enumerate(stage_names, 1)`,
each with `{"status": "pending"}`. -/
def initialStages : List (String × StageRec) :=
  stage_names.enum.map
    (fun p => (toString (p.1 + 1) ++ "_" ++ p.2, ({ status := "pending" } : StageRec)))

/-- Model of `StateManager.create_new`. -/
def create_new (project_name : String) (config : Json) (now : String) : ProjectState :=
  { project_name := project_name
    created_at := now
    updated_at := now
    config := config
    input := Json.obj []
    pipeline := { current_stage := 0, stages := initialStages }
    materials := { selected := [], generated := [] }
    statistics :=
      { total_tokens_used := 0, total_api_calls := 0, total_time_seconds := 0 } }

/-- Model of `int(stage_key.split("_")[0])`; `none` models the raised
`ValueError` (never hit by the pipeline's keys, which are digit-prefixed). -/
def parseStageNum (key : String) : Option Nat :=
  let ds := key.data.takeWhile (fun c => !(c == '_'))
  if ds.isEmpty then none
  else if ds.all isDigit then some (digitsToNat ds) else none

/-- Record-level part of `StateManager.update_stage`: set the status,
stamp `started_at` on the first transition to `in_progress`, stamp
`completed_at` on every transition to `completed`, then merge the
keyword arguments. -/
def updRecord (r : StageRec) (status now : String) (extra : Extra) : StageRec :=
  let r1 := { r with status := status }
  let r2 :=
    if status = "in_progress" ∧ r1.started_at = none then
      { r1 with started_at := some now }
    else r1
  let r3 :=
    if status = "completed" then { r2 with completed_at := some now } else r2
  mergeExtra r3 extra

/-- Model of `StateManager.update_stage` (ending in `save()`):
`current_stage` is assigned the key's numeric prefix exactly when the
new status is `completed`. -/
def update_stage (st : ProjectState) (stage_key status now : String)
    (extra : Extra) : Option ProjectState :=
  match parseStageNum stage_key with
  | none => none
  | some stage_num =>
    let r0 := (assocGet st.pipeline.stages stage_key).getD {}
    let r := updRecord r0 status now extra
    let cur :=
      if status = "completed" then stage_num else st.pipeline.current_stage
    some { st with
      pipeline :=
        { current_stage := cur, stages := assocSet st.pipeline.stages stage_key r }
      updated_at := now }

/-- Model of `StateManager.get_stage_status`. -/
def get_stage_status (st : ProjectState) (stage_key : String) : Option String :=
  (assocGet st.pipeline.stages stage_key).map (fun r => r.status)

/-- Model of `StateManager.get_last_completed_stage`. -/
def get_last_completed_stage (st : ProjectState) : Nat :=
  st.pipeline.current_stage

/-- Model of `StateManager.can_run_stage`. -/
def can_run_stage (st : ProjectState) (stage_num : Nat) : Bool :=
  if stage_num = 1 then true
  else decide (stage_num - 1 ≤ get_last_completed_stage st)

/-- Model of `StateManager.update_statistics` at its pipeline call site
(`base.py` accumulates `total_tokens_used` and `total_api_calls`,
both numeric, so both accumulate by addition). -/
def update_statistics_tokens (st : ProjectState) (tokens calls : Nat)
    (now : String) : ProjectState :=
  { st with
    statistics :=
      { st.statistics with
        total_tokens_used := st.statistics.total_tokens_used + tokens
        total_api_calls := st.statistics.total_api_calls + calls }
    updated_at := now }

/-- Model of `StateManager.add_selected_material` (saves — and stamps
`updated_at` — only when the id was actually appended). -/
def add_selected_material (st : ProjectState) (material_id now : String) :
    ProjectState :=
  if material_id ∈ st.materials.selected then st
  else
    { st with
      materials := { st.materials with selected := st.materials.selected ++ [material_id] }
      updated_at := now }

/-- Model of `StateManager.add_generated_material`. -/
def add_generated_material (st : ProjectState) (material_id file_path now : String) :
    ProjectState :=
  { st with
    materials :=
      { st.materials with
        generated := st.materials.generated ++
          [{ id := material_id, file := file_path, generated_at := now }] }
    updated_at := now }

/-- One state-store mutation, for reasoning about operation sequences. -/
inductive StoreOp where
  | updStage (key status now : String) (extra : Extra)
  | updStats (tokens calls : Nat) (now : String)
  | addSelected (material_id now : String)
  | addGenerated (material_id file_path now : String)

def applyOp (st : ProjectState) : StoreOp → Option ProjectState
  | .updStage k s n e => update_stage st k s n e
  | .updStats t c n => some (update_statistics_tokens st t c n)
  | .addSelected i n => some (add_selected_material st i n)
  | .addGenerated i f n => some (add_generated_material st i f n)

def applyOps (st : ProjectState) : List StoreOp → Option ProjectState
  | [] => some st
  | op :: rest =>
    match applyOp st op with
    | none => none
    | some st' => applyOps st' rest

/-! ## Stage base (stages/base.py) -/

/-- Model of the `StageResult` dataclass. -/
structure StageResult where
  success : Bool
  output_file : Option String := none
  tokens_used : Nat := 0
  error : Option String := none
  metadata : Option (List (String × Json)) := none

/-- Outcome of the variant-specific `execute()`: either it returns a
`StageResult` or it raises with a message. -/
inductive ExecOutcome where
  | ok (r : StageResult)
  | raises (msg : String)

/-- Model of `BaseStage.run`: mark `in_progress`, run `execute()`, on a
successful result mark `completed` (with output file and token count)
and accumulate statistics, on a raised failure mark `error` and return a
failed result.  `none` only when the stage key's numeric prefix does not
parse (never the case for the ten stages). -/
def runStage (st0 : ProjectState) (stage_key : String) (outcome : ExecOutcome)
    (now : String) : Option (StageResult × ProjectState) :=
  match update_stage st0 stage_key "in_progress" now {} with
  | none => none
  | some st1 =>
    match outcome with
    | .raises m =>
      match update_stage st1 stage_key "error" now { error_message := some m } with
      | none => none
      | some st2 => some ({ success := false, error := some m }, st2)
    | .ok r =>
      if r.success then
        match update_stage st1 stage_key "completed" now
            { output_file := some r.output_file, tokens_used := some r.tokens_used } with
        | none => none
        | some st2 =>
          let st3 :=
            if 0 < r.tokens_used then update_statistics_tokens st2 r.tokens_used 1 now
            else st2
          some (r, st3)
      else some (r, st1)

/-- Class-level configuration shared by the ten stage variants. -/
structure StageConfig where
  stage_id : Nat
  stage_name : String
  stage_title : String
  input_files : List String := []
  output_file : String := ""
  requires_llm : Bool := true

/-- Model of the `BaseStage.stage_key` property: the part of
`stage_name` after its first underscore (or all of it if none),
prefixed with the numeric `stage_id`. -/
def stage_key_of (c : StageConfig) : String :=
  let name :=
    if '_' ∈ c.stage_name.data then
      String.mk ((c.stage_name.data.dropWhile (fun ch => !(ch == '_'))).drop 1)
    else c.stage_name
  toString c.stage_id ++ "_" ++ name

def LoadStage : StageConfig :=
  { stage_id := 1, stage_name := "01_load", stage_title := "Загрузка файла",
    output_file := "01_loaded.md", requires_llm := false }

def FormatStage : StageConfig :=
  { stage_id := 2, stage_name := "02_format", stage_title := "Форматирование",
    input_files := ["01_loaded.md"], output_file := "02_formatted.md" }

def CompareStage : StageConfig :=
  { stage_id := 3, stage_name := "03_compare", stage_title := "Сравнение и коррекция",
    input_files := ["01_loaded.md", "02_formatted.md"], output_file := "03_corrected.md" }

def PlanStage : StageConfig :=
  { stage_id := 4, stage_name := "04_plan", stage_title := "План статьи",
    input_files := ["03_corrected.md"], output_file := "04_plan.json" }

def WriteStage : StageConfig :=
  { stage_id := 5, stage_name := "05_write_section", stage_title := "Написание секций",
    input_files := ["03_corrected.md", "04_plan.json"], output_file := "05_sections/" }

def MergeStage : StageConfig :=
  { stage_id := 6, stage_name := "06_merge", stage_title := "Сведение секций",
    output_file := "06_merged.md", requires_llm := false }

def EditStage : StageConfig :=
  { stage_id := 7, stage_name := "07_literary_edit", stage_title := "Литературная правка",
    input_files := ["06_merged.md"], output_file := "07_edited.md" }

def AnalyzeStage : StageConfig :=
  { stage_id := 8, stage_name := "08_marketing_analysis",
    stage_title := "Маркетинговый анализ",
    input_files := ["07_edited.md"], output_file := "08_analysis.md" }

def SelectStage : StageConfig :=
  { stage_id := 9, stage_name := "09_select", stage_title := "Выбор материалов",
    input_files := ["08_analysis.md"], requires_llm := false }

def GenerateStage : StageConfig :=
  { stage_id := 10, stage_name := "10_generate", stage_title := "Генерация материалов",
    input_files := ["07_edited.md", "08_analysis.md"], output_file := "output/materials/" }

def stageConfigs : List StageConfig :=
  [LoadStage, FormatStage, CompareStage, PlanStage, WriteStage,
   MergeStage, EditStage, AnalyzeStage, SelectStage, GenerateStage]

/-! ## Orchestrator gate (pipeline.py, Pipeline.run_stage) -/

/-- The ordering precondition of `Pipeline.run_stage`: a `ValueError`
with the shown message is raised when `can_run_stage` is false. -/
def run_stage_check (st : ProjectState) (stage_num : Nat) : Except String Unit :=
  if can_run_stage st stage_num then Except.ok ()
  else
    Except.error ("Cannot run stage " ++ toString stage_num ++
      ". Complete stage " ++ toString (get_last_completed_stage st + 1) ++ " first.")

/-! ## Stage 4 execute (stages/s04_plan.py) -/

/-- Sections count used in the success metadata:
`len(plan.get("sections", []))`. -/
def planSectionsCount (plan : Json) : Nat :=
  match plan with
  | .obj fields =>
    match assocGet fields "sections" with
    | some (.arr elems) => elems.length
    | _ => 0
  | _ => 0

/-- Model of `PlanStage.execute` given the LLM response text: extract
and parse JSON (a parse failure raises, to be caught by `run`),
validate, and return a failed result on invalid structure, otherwise a
successful result.  File persistence is not part of the modelled
observable state. -/
def planExecute (response : String) (tokens : Nat) : ExecOutcome :=
  match extract_json response with
  | none => .raises "json.JSONDecodeError"
  | some plan =>
    match validate_plan plan with
    | none => .raises "TypeError"
    | some false =>
      .ok { success := false, error := some "Invalid plan structure returned by LLM" }
    | some true =>
      .ok { success := true, output_file := some "04_plan.json", tokens_used := tokens,
            metadata := some [("sections_count", Json.num (planSectionsCount plan))] }

/-! ## Stage 5 write (stages/s05_write.py)

Stage 5 reads the plan persisted by stage 4 (a dict with `title`,
optional `subtitle`, `tags` and a non-empty `sections` list whose
entries carry `id`, `title` and `key_points` — the shape requested by
the stage-4 prompt and admitted by `_validate_plan`), and generates the
sections one at a time.  The generation gateway is abstracted as a
function from the full prompt to the response text (`call_llm` passes
the built prompt through unchanged to the backend since stage 5 supplies
no `extra_context`). -/

structure PlanSection where
  id : Int := 1
  title : String
  key_points : List String
deriving DecidableEq

structure ArticlePlan where
  title : String
  subtitle : Option String := none
  tags : List String := []
  sections : List PlanSection
deriving DecidableEq

def jsonOfSection (s : PlanSection) : Json :=
  Json.obj [("id", Json.num s.id), ("title", Json.str s.title),
            ("key_points", Json.arr (s.key_points.map Json.str))]

def jsonOfPlan (p : ArticlePlan) : Json :=
  Json.obj ([("title", Json.str p.title)] ++
    (match p.subtitle with
     | some s => [("subtitle", Json.str s)]
     | none => []) ++
    [("tags", Json.arr (p.tags.map Json.str)),
     ("sections", Json.arr (p.sections.map jsonOfSection))])

/-- One entry of the `prev_text` block: `f"## Секция {i+1}\n{text}"`. -/
def sectionLabel (i : Nat) (text : String) : String :=
  "## Секция " ++ toString (i + 1) ++ "\n" ++ text

/-- The `prev_text` built by `_build_section_prompt`. -/
def prevSectionsBlock (previous_sections : List String) : String :=
  if previous_sections.isEmpty then "(Это первая секция статьи)"
  else
    joinSep "\n\n---\n\n"
      ((previous_sections.enum).map (fun p => sectionLabel p.1 p.2))

/-- Model of `WriteStage._build_section_prompt`. -/
def build_section_prompt (sec : PlanSection) (section_num total : Nat)
    (transcript : String) (plan : ArticlePlan)
    (previous_sections : List String) : String :=
  "## Полный план статьи\n\n```json\n" ++ jsonDumps2 (jsonOfPlan plan) ++
  "\n```\n\n## Полная транскрипция интервью\n\n" ++ transcript ++
  "\n\n## Уже написанные секции статьи\n\n" ++
  prevSectionsBlock previous_sections ++
  "\n\n## Текущая задача\n\nНапиши секцию " ++ toString section_num ++
  " из " ++ toString total ++ ": \"" ++ sec.title ++
  "\"\n\n### Ключевые тезисы для раскрытия в этой секции:\n\n" ++
  joinSep "\n" (sec.key_points.map (fun pt => "- " ++ pt)) ++
  "\n\n## Требования\n\n" ++
  "- Используй релевантные цитаты и факты из транскрипции\n" ++
  "- Обеспечь плавный переход от предыдущей секции (если она есть)\n" ++
  "- Сохраняй единый стиль повествования\n" ++
  "- НЕ повторяй то, что уже было сказано в предыдущих секциях\n" ++
  "- Пиши только текст секции, без заголовка (заголовок уже есть в плане)\n"

/-- The section loop of `WriteStage.execute`: for each section build the
prompt from the sections already written, call generation, and append
the response to the context for the following sections.  Returns the
(prompt, response) pair of every generation call in order. -/
def writeStep (transcript : String) (plan : ArticlePlan) (g : String → String) :
    List PlanSection → Nat → List String → List (String × String)
  | [], _, _ => []
  | sec :: rest, idx, written =>
    let prompt := build_section_prompt sec (idx + 1) plan.sections.length
      transcript plan written
    let resp := g prompt
    (prompt, resp) :: writeStep transcript plan g rest (idx + 1) (written ++ [resp])

/-- The generation calls issued by one run of `WriteStage.execute`. -/
def writeTrace (transcript : String) (plan : ArticlePlan)
    (g : String → String) : List (String × String) :=
  writeStep transcript plan g plan.sections 0 []

/-! ## Prompt manager (core/prompt_manager.py) -/

/-- Model of the `PromptInfo` dataclass. -/
structure PromptInfo where
  content : String
  source : String
  file_path : Option String := none
deriving DecidableEq

/-- Source: `DEFAULT_PROMPTS` in `core/prompt_manager.py`.  The keys are
exactly those of the source; the multi-page Russian prompt bodies are
represented here by their opening header line, since the resolution
logic treats the content as opaque text and no claim inspects it. -/
def DEFAULT_PROMPTS : List (String × String) :=
  [("02_format", "# Системный промпт: Форматирование транскрипции"),
   ("03_compare", "# Системный промпт: Сравнение и коррекция"),
   ("04_plan", "# Системный промпт: Создание плана статьи"),
   ("05_write_section", "# Системный промпт: Написание секции статьи"),
   ("07_literary_edit", "# Системный промпт: Литературная редактура"),
   ("08_marketing_analysis", "# Системный промпт: Маркетинговый анализ"),
   ("materials/tg_vk_post", "# Пост для Telegram/VK"),
   ("materials/email_announce", "# Анонс для email-рассылки"),
   ("materials/press_release", "# Пресс-релиз"),
   ("materials/cards", "# Карточки для соцсетей"),
   ("materials/business_media", "# Статья для делового СМИ")]

/-- State of a `PromptManager`: the override files of the installation
prompts directory, the override files of the active project's prompts
directory (when a project directory is set), and the per-stage cache.
Files are keyed by their name `f"{stage}.md"`. -/
structure PromptManagerState where
  prompts_files : List (String × String)
  project_files : Option (List (String × String))
  cache : List (String × PromptInfo)

/-- Model of `PromptManager.get_prompt_info`: cache, then project
override, then installation override, then built-in default; `none`
models the raised `ValueError`.  Returns the info and the manager state
with its cache updated. -/
def get_prompt_info (pm : PromptManagerState) (stage : String) :
    Option (PromptInfo × PromptManagerState) :=
  match assocGet pm.cache stage with
  | some info => some (info, pm)
  | none =>
    match (match pm.project_files with
           | some files => assocGet files (stage ++ ".md")
           | none => none) with
    | some content =>
      let info : PromptInfo :=
        { content := content, source := "project",
          file_path := some ("<project_dir>/prompts/" ++ stage ++ ".md") }
      some (info, { pm with cache := assocSet pm.cache stage info })
    | none =>
      match assocGet pm.prompts_files (stage ++ ".md") with
      | some content =>
        let info : PromptInfo :=
          { content := content, source := "custom",
            file_path := some ("<prompts_dir>/" ++ stage ++ ".md") }
        some (info, { pm with cache := assocSet pm.cache stage info })
      | none =>
        match assocGet DEFAULT_PROMPTS stage with
        | some content =>
          let info : PromptInfo :=
            { content := content, source := "default", file_path := none }
          some (info, { pm with cache := assocSet pm.cache stage info })
        | none => none

/-- Model of `PromptManager.reset_to_default`: delete the project-scoped
and the installation-scoped override files for the stage (both!), clear
the stage's cache entry, and report whether anything was deleted. -/
def reset_to_default (pm : PromptManagerState) (stage : String) :
    Bool × PromptManagerState :=
  let fname := stage ++ ".md"
  let deleted1 :=
    match pm.project_files with
    | some files => assocHas files fname
    | none => false
  let projectFiles :=
    match pm.project_files with
    | some files => some (assocDel files fname)
    | none => none
  let deleted2 := assocHas pm.prompts_files fname
  (deleted1 || deleted2,
   { prompts_files := assocDel pm.prompts_files fname
     project_files := projectFiles
     cache := assocDel pm.cache stage })

/-- Model of `PromptManager.save_prompt`. -/
def save_prompt (pm : PromptManagerState) (stage content : String)
    (to_project : Bool) : PromptManagerState :=
  let fname := stage ++ ".md"
  if to_project ∧ pm.project_files.isSome then
    { pm with
      project_files := pm.project_files.map (fun f => assocSet f fname content)
      cache := assocDel pm.cache stage }
  else
    { pm with
      prompts_files := assocSet pm.prompts_files fname content
      cache := assocDel pm.cache stage }

/-! ## Persistence (StateManager.save / StateManager.load)

`save` re-stamps `updated_at`, dumps the state to a JSON document and
writes it; `load` parses the document back into a `ProjectState`
(pydantic keeps the nested dicts as parsed).  The textual
`json.dumps`/`json.loads` layer is the identity on JSON trees, so the
document is modelled as the tree itself; `projectStateOfJson` is the
typed reading of the parsed tree. -/

def stageRecToJson (r : StageRec) : Json :=
  Json.obj ([("status", Json.str r.status)] ++
    (match r.started_at with
     | some t => [("started_at", Json.str t)]
     | none => []) ++
    (match r.completed_at with
     | some t => [("completed_at", Json.str t)]
     | none => []) ++
    (match r.output_file with
     | some (some f) => [("output_file", Json.str f)]
     | some none => [("output_file", Json.null)]
     | none => []) ++
    (match r.tokens_used with
     | some n => [("tokens_used", Json.num (Int.ofNat n))]
     | none => []) ++
    (match r.error_message with
     | some m => [("error_message", Json.str m)]
     | none => []) ++
    (match r.progress with
     | some pr =>
       [("progress", Json.obj [("current", Json.num (Int.ofNat pr.1)),
                               ("total", Json.num (Int.ofNat pr.2))])]
     | none => []))

def decStr : Json → Option String
  | .str s => some s
  | _ => none

def decOptStrField (fields : List (String × Json)) (k : String) :
    Option (Option String) :=
  match assocGet fields k with
  | none => some none
  | some (.str s) => some (some s)
  | some _ => none

def decOptOptStrField (fields : List (String × Json)) (k : String) :
    Option (Option (Option String)) :=
  match assocGet fields k with
  | none => some none
  | some .null => some (some none)
  | some (.str s) => some (some (some s))
  | some _ => none

def decOptNatField (fields : List (String × Json)) (k : String) :
    Option (Option Nat) :=
  match assocGet fields k with
  | none => some none
  | some (.num (Int.ofNat n)) => some (some n)
  | some _ => none

def decOptProgressField (fields : List (String × Json)) (k : String) :
    Option (Option (Nat × Nat)) :=
  match assocGet fields k with
  | none => some none
  | some (.obj pf) =>
    match assocGet pf "current", assocGet pf "total" with
    | some (.num (Int.ofNat c)), some (.num (Int.ofNat t)) => some (some (c, t))
    | _, _ => none
  | some _ => none

def stageRecOfJson (j : Json) : Option StageRec :=
  match j with
  | .obj fields => do
    let status ← (assocGet fields "status").bind decStr
    let sa ← decOptStrField fields "started_at"
    let ca ← decOptStrField fields "completed_at"
    let ouf ← decOptOptStrField fields "output_file"
    let tu ← decOptNatField fields "tokens_used"
    let em ← decOptStrField fields "error_message"
    let pr ← decOptProgressField fields "progress"
    some { status := status, started_at := sa, completed_at := ca,
           output_file := ouf, tokens_used := tu, error_message := em,
           progress := pr }
  | _ => none

def stagesOfJson : List (String × Json) → Option (List (String × StageRec))
  | [] => some []
  | (k, j) :: rest => do
    let r ← stageRecOfJson j
    let rs ← stagesOfJson rest
    some ((k, r) :: rs)

def pipelineToJson (p : PipelineState) : Json :=
  Json.obj [("current_stage", Json.num (Int.ofNat p.current_stage)),
            ("stages", Json.obj (p.stages.map (fun kv => (kv.1, stageRecToJson kv.2))))]

def pipelineOfJson (j : Json) : Option PipelineState :=
  match j with
  | .obj fields =>
    match assocGet fields "current_stage", assocGet fields "stages" with
    | some (.num (Int.ofNat cur)), some (.obj sfields) =>
      (stagesOfJson sfields).map
        (fun s => { current_stage := cur, stages := s })
    | _, _ => none
  | _ => none

def generatedToJson (g : GeneratedRec) : Json :=
  Json.obj [("id", Json.str g.id), ("file", Json.str g.file),
            ("generated_at", Json.str g.generated_at)]

def generatedOfJson (j : Json) : Option GeneratedRec :=
  match j with
  | .obj fields => do
    let i ← (assocGet fields "id").bind decStr
    let f ← (assocGet fields "file").bind decStr
    let t ← (assocGet fields "generated_at").bind decStr
    some { id := i, file := f, generated_at := t }
  | _ => none

def strListOfJson : List Json → Option (List String)
  | [] => some []
  | j :: rest => do
    let s ← decStr j
    let ss ← strListOfJson rest
    some (s :: ss)

def genListOfJson : List Json → Option (List GeneratedRec)
  | [] => some []
  | j :: rest => do
    let g ← generatedOfJson j
    let gs ← genListOfJson rest
    some (g :: gs)

def materialsToJson (m : Materials) : Json :=
  Json.obj [("selected", Json.arr (m.selected.map Json.str)),
            ("generated", Json.arr (m.generated.map generatedToJson))]

def materialsOfJson (j : Json) : Option Materials :=
  match j with
  | .obj fields =>
    match assocGet fields "selected", assocGet fields "generated" with
    | some (.arr sel), some (.arr gen) => do
      let s ← strListOfJson sel
      let g ← genListOfJson gen
      some { selected := s, generated := g }
    | _, _ => none
  | _ => none

def statisticsToJson (s : Statistics) : Json :=
  Json.obj [("total_tokens_used", Json.num (Int.ofNat s.total_tokens_used)),
            ("total_api_calls", Json.num (Int.ofNat s.total_api_calls)),
            ("total_time_seconds", Json.num (Int.ofNat s.total_time_seconds))]

def statisticsOfJson (j : Json) : Option Statistics :=
  match j with
  | .obj fields =>
    match assocGet fields "total_tokens_used", assocGet fields "total_api_calls",
          assocGet fields "total_time_seconds" with
    | some (.num (Int.ofNat a)), some (.num (Int.ofNat b)),
        some (.num (Int.ofNat c)) =>
      some { total_tokens_used := a, total_api_calls := b, total_time_seconds := c }
    | _, _, _ => none
  | _ => none

/-- Serialization of `ProjectState.model_dump()` with the two datetimes
already rendered to ISO strings, as written by `save`. -/
def projectStateToJson (st : ProjectState) : Json :=
  Json.obj [("version", Json.str st.version),
            ("project_name", Json.str st.project_name),
            ("created_at", Json.str st.created_at),
            ("updated_at", Json.str st.updated_at),
            ("config", st.config),
            ("input", st.input),
            ("pipeline", pipelineToJson st.pipeline),
            ("materials", materialsToJson st.materials),
            ("statistics", statisticsToJson st.statistics)]

def projectStateOfJson (j : Json) : Option ProjectState :=
  match j with
  | .obj fields => do
    let v ← (assocGet fields "version").bind decStr
    let pn ← (assocGet fields "project_name").bind decStr
    let ca ← (assocGet fields "created_at").bind decStr
    let ua ← (assocGet fields "updated_at").bind decStr
    let cfg ← assocGet fields "config"
    let inp ← assocGet fields "input"
    let pl ← (assocGet fields "pipeline").bind pipelineOfJson
    let mt ← (assocGet fields "materials").bind materialsOfJson
    let stt ← (assocGet fields "statistics").bind statisticsOfJson
    some { version := v, project_name := pn, created_at := ca, updated_at := ua,
           config := cfg, input := inp, pipeline := pl, materials := mt,
           statistics := stt }
  | _ => none

/-- Model of `StateManager.save`: stamp `updated_at` with the current
time, then serialize the whole state. -/
def save (st : ProjectState) (now : String) : Json :=
  projectStateToJson { st with updated_at := now }

/-- Model of `StateManager.load` applied to the document written by
`save`. -/
def load (doc : Json) : Option ProjectState :=
  projectStateOfJson doc

theorem stageRecOfJson_roundtrip (r : StageRec) :
    stageRecOfJson (stageRecToJson r) = some r := by
  rcases r with ⟨status, sa, ca, ouf, tu, em, pr⟩
  rcases sa with _ | sa <;> rcases ca with _ | ca <;>
    rcases ouf with _ | ouf <;> rcases tu with _ | tu <;>
    rcases em with _ | em <;> rcases pr with _ | ⟨c, t⟩ <;>
    first
    | rfl
    | (rcases ouf with _ | f <;> rfl)

theorem stagesOfJson_roundtrip (l : List (String × StageRec)) :
    stagesOfJson (l.map (fun kv => (kv.1, stageRecToJson kv.2))) = some l := by
  induction l with
  | nil => rfl
  | cons kv rest ih =>
    simp only [List.map_cons, stagesOfJson, stageRecOfJson_roundtrip, ih,
      Option.bind_eq_bind, Option.some_bind]

theorem pipelineOfJson_roundtrip (p : PipelineState) :
    pipelineOfJson (pipelineToJson p) = some p := by
  rcases p with ⟨cur, stages⟩
  show (stagesOfJson (stages.map (fun kv => (kv.1, stageRecToJson kv.2)))).map
      (fun s => ({ current_stage := cur, stages := s } : PipelineState)) =
    some { current_stage := cur, stages := stages }
  rw [stagesOfJson_roundtrip]
  rfl

theorem generatedOfJson_roundtrip (g : GeneratedRec) :
    generatedOfJson (generatedToJson g) = some g := rfl

theorem strListOfJson_roundtrip (l : List String) :
    strListOfJson (l.map Json.str) = some l := by
  induction l with
  | nil => rfl
  | cons s rest ih =>
    simp only [List.map_cons, strListOfJson, decStr, ih,
      Option.bind_eq_bind, Option.some_bind]

theorem genListOfJson_roundtrip (l : List GeneratedRec) :
    genListOfJson (l.map generatedToJson) = some l := by
  induction l with
  | nil => rfl
  | cons g rest ih =>
    simp only [List.map_cons, genListOfJson, generatedOfJson_roundtrip, ih,
      Option.bind_eq_bind, Option.some_bind]

theorem materialsOfJson_roundtrip (m : Materials) :
    materialsOfJson (materialsToJson m) = some m := by
  rcases m with ⟨sel, gen⟩
  simp only [materialsToJson, materialsOfJson]
  rw [show assocGet [("selected", Json.arr (sel.map Json.str)),
        ("generated", Json.arr (gen.map generatedToJson))] "selected" =
        some (Json.arr (sel.map Json.str)) from rfl]
  rw [show assocGet [("selected", Json.arr (sel.map Json.str)),
        ("generated", Json.arr (gen.map generatedToJson))] "generated" =
        some (Json.arr (gen.map generatedToJson)) from rfl]
  simp only [strListOfJson_roundtrip, genListOfJson_roundtrip,
    Option.bind_eq_bind, Option.some_bind]

theorem statisticsOfJson_roundtrip (s : Statistics) :
    statisticsOfJson (statisticsToJson s) = some s := rfl

theorem projectStateOfJson_roundtrip (st : ProjectState) :
    projectStateOfJson (projectStateToJson st) = some st := by
  rcases st with ⟨v, pn, ca, ua, cfg, inp, pl, mt, stt⟩
  show ((pipelineOfJson (pipelineToJson pl)).bind (fun pl2 =>
      (materialsOfJson (materialsToJson mt)).bind (fun mt2 =>
        (statisticsOfJson (statisticsToJson stt)).bind (fun stt2 =>
          some ({ version := v, project_name := pn, created_at := ca,
                  updated_at := ua, config := cfg, input := inp, pipeline := pl2,
                  materials := mt2, statistics := stt2 } : ProjectState))))) =
    some ({ version := v, project_name := pn, created_at := ca, updated_at := ua,
            config := cfg, input := inp, pipeline := pl, materials := mt,
            statistics := stt } : ProjectState)
  rw [pipelineOfJson_roundtrip, materialsOfJson_roundtrip,
    statisticsOfJson_roundtrip]
  rfl


/-! ## Helper lemmas about the state operations -/

theorem assocGet_assocSet_self {α : Type} (l : List (String × α)) (k : String)
    (v : α) : assocGet (assocSet l k v) k = some v := by
  induction l with
  | nil => simp [assocSet, assocGet]
  | cons kv rest ih =>
    rcases kv with ⟨k', v'⟩
    by_cases h : k' = k
    · subst h
      simp [assocSet, assocGet]
    · simp [assocSet, assocGet, h, ih]

theorem mergeExtra_status (r : StageRec) (e : Extra) :
    (mergeExtra r e).status = r.status := by
  rcases e with ⟨eo, et, ee, ep⟩
  simp only [mergeExtra]
  rcases eo with _ | eo <;> rcases et with _ | et <;> rcases ee with _ | ee <;>
    rcases ep with _ | ep <;> rfl

theorem mergeExtra_started_at (r : StageRec) (e : Extra) :
    (mergeExtra r e).started_at = r.started_at := by
  rcases e with ⟨eo, et, ee, ep⟩
  simp only [mergeExtra]
  rcases eo with _ | eo <;> rcases et with _ | et <;> rcases ee with _ | ee <;>
    rcases ep with _ | ep <;> rfl

theorem mergeExtra_completed_at (r : StageRec) (e : Extra) :
    (mergeExtra r e).completed_at = r.completed_at := by
  rcases e with ⟨eo, et, ee, ep⟩
  simp only [mergeExtra]
  rcases eo with _ | eo <;> rcases et with _ | et <;> rcases ee with _ | ee <;>
    rcases ep with _ | ep <;> rfl

theorem mergeExtra_error_message (r : StageRec) (e : Extra) (m : String)
    (he : e.error_message = some m) : (mergeExtra r e).error_message = some m := by
  rcases e with ⟨eo, et, ee, ep⟩
  simp only at he
  subst he
  simp only [mergeExtra]
  rcases eo with _ | eo <;> rcases et with _ | et <;> rcases ep with _ | ep <;> rfl

theorem updRecord_status (r : StageRec) (s n : String) (e : Extra) :
    (updRecord r s n e).status = s := by
  simp only [updRecord, mergeExtra_status]
  split <;> split <;> rfl

theorem updRecord_started_at_some (r : StageRec) (s n : String) (e : Extra)
    {t : String} (h : r.started_at = some t) :
    (updRecord r s n e).started_at = some t := by
  simp only [updRecord, mergeExtra_started_at]
  split_ifs <;> simp_all

theorem updRecord_started_at_first (r : StageRec) (n : String) (e : Extra)
    (h : r.started_at = none) :
    (updRecord r "in_progress" n e).started_at = some n := by
  simp only [updRecord, mergeExtra_started_at]
  split_ifs <;>
    simp_all [(by decide : ¬(("in_progress" : String) = "completed"))]

theorem updRecord_completed_at (r : StageRec) (n : String) (e : Extra) :
    (updRecord r "completed" n e).completed_at = some n := by
  simp only [updRecord, mergeExtra_completed_at]
  split_ifs <;>
    simp_all [(by decide : ¬(("completed" : String) = "in_progress"))]

theorem updRecord_error_message (r : StageRec) (s n : String) (e : Extra)
    {m : String} (he : e.error_message = some m) :
    (updRecord r s n e).error_message = some m := by
  simp only [updRecord]
  exact mergeExtra_error_message _ _ _ he

theorem update_stage_some (st : ProjectState) (key status now : String)
    (extra : Extra) {nk : Nat} (hk : parseStageNum key = some nk) :
    update_stage st key status now extra =
      some { st with
        pipeline :=
          { current_stage :=
              if status = "completed" then nk else st.pipeline.current_stage
            stages := assocSet st.pipeline.stages key
              (updRecord ((assocGet st.pipeline.stages key).getD {}) status now extra) }
        updated_at := now } := by
  simp only [update_stage, hk]

theorem update_stage_current_of_ne (st : ProjectState) (key status now : String)
    (extra : Extra) {st' : ProjectState} (hs : status ≠ "completed")
    (h : update_stage st key status now extra = some st') :
    st'.pipeline.current_stage = st.pipeline.current_stage := by
  simp only [update_stage] at h
  revert h
  cases parseStageNum key with
  | none => intro h; cases h
  | some nk =>
    intro h
    cases h
    simp [hs]

theorem update_stage_status (st : ProjectState) (key status now : String)
    (extra : Extra) {st' : ProjectState}
    (h : update_stage st key status now extra = some st') :
    get_stage_status st' key = some status := by
  simp only [update_stage] at h
  revert h
  cases parseStageNum key with
  | none => intro h; cases h
  | some nk =>
    intro h
    cases h
    simp [get_stage_status, assocGet_assocSet_self, updRecord_status]

theorem update_stage_current_of_completed (st : ProjectState) (key now : String)
    (extra : Extra) {st' : ProjectState}
    (h : update_stage st key "completed" now extra = some st') :
    parseStageNum key = some st'.pipeline.current_stage ∧
      get_stage_status st' key = some "completed" := by
  refine ⟨?_, update_stage_status _ _ _ _ _ h⟩
  simp only [update_stage] at h
  revert h
  cases hp : parseStageNum key with
  | none => intro h; cases h
  | some nk =>
    intro h
    cases h
    simp

/-! ## Claim C1 -/

/-- C1 (as stated) is refuted by a state reachable through the
orchestrator: run stages 1–3 to completion, then re-run stage 3 and let
it fail.  The resulting state has `current_stage = 3` with stage 3's
record in status `error` — not `completed` — yet `can_run_stage 4` holds
and `run_stage`'s precondition check passes, so running stage 4 does not
fail although stages 1..3 are not all `completed`. -/
def stC1 : Option ProjectState :=
  let st0 := create_new "demo" (Json.obj []) "t0"
  (runStage st0 "1_load"
      (.ok { success := true, output_file := some "01_loaded.md" }) "t1").bind
    (fun p1 =>
      (runStage p1.2 "2_format"
          (.ok { success := true, output_file := some "02_formatted.md",
                 tokens_used := 100 }) "t2").bind
        (fun p2 =>
          (runStage p2.2 "3_compare"
              (.ok { success := true, output_file := some "03_corrected.md",
                     tokens_used := 120 }) "t3").bind
            (fun p3 =>
              (runStage p3.2 "3_compare"
                  (.raises "Input file not found") "t4").map Prod.snd)))

/-- C1, counterexample: in the reachable state above, the stage-4 gate
passes (`can_run_stage` true, `run_stage` check ok) although stage 3's
record has status `error`, so "fails unless stages 1..n-1 all have
status completed" is false of the code. -/
theorem C1_counterexample :
    stC1.map (fun st =>
      (can_run_stage st 4, (run_stage_check st 4).isOk,
       get_stage_status st "1_load", get_stage_status st "2_format",
       get_stage_status st "3_compare")) =
    some (true, true, some "completed", some "completed", some "error") := by
  rfl

/-- C1 (amended): `can_run_stage 1` is true in every state, and for
`n` in 2..10 the orchestrator's `run_stage` passes its out-of-order
check exactly when `current_stage ≥ n - 1` (the last completed stage
number), not when stages 1..n-1 all have status `completed`. -/
theorem C1_amended (st : ProjectState) (n : Nat) (h2 : 2 ≤ n) (h10 : n ≤ 10) :
    can_run_stage st 1 = true ∧
    ((run_stage_check st n).isOk = true ↔ n - 1 ≤ st.pipeline.current_stage) := by
  refine ⟨rfl, ?_⟩
  have hn : n ≠ 1 := by omega
  by_cases hc : n - 1 ≤ st.pipeline.current_stage
  · simp [run_stage_check, can_run_stage, get_last_completed_stage, hn, hc,
      Except.isOk, Except.toBool]
  · simp [run_stage_check, can_run_stage, get_last_completed_stage, hn, hc,
      Except.isOk, Except.toBool]

/-- Witness for C1 (amended) at `n = 4` on a freshly created project
(`current_stage = 0`, so the check must fail). -/
theorem C1_amended_witness :
    (2 ≤ 4 ∧ (4 : Nat) ≤ 10) ∧
    (can_run_stage (create_new "p" (Json.obj []) "t0") 1 = true ∧
      ((run_stage_check (create_new "p" (Json.obj []) "t0") 4).isOk = true ↔
        4 - 1 ≤ (create_new "p" (Json.obj []) "t0").pipeline.current_stage)) :=
  ⟨by decide, C1_amended (create_new "p" (Json.obj []) "t0") 4 (by decide) (by decide)⟩

/-! ## Claim C2 -/

/-- States after completing stages 1, 2, 3 in order (orchestrator-style
sequences of `update_stage` calls), then re-completing stage 1. -/
def stC2pre : Option ProjectState :=
  applyOps (create_new "demo" (Json.obj []) "t0")
    [.updStage "1_load" "in_progress" "t1" {},
     .updStage "1_load" "completed" "t1" {},
     .updStage "2_format" "in_progress" "t2" {},
     .updStage "2_format" "completed" "t2" {},
     .updStage "3_compare" "in_progress" "t3" {},
     .updStage "3_compare" "completed" "t3" {}]

def stC2post : Option ProjectState :=
  stC2pre.bind (fun st =>
    applyOps st
      [.updStage "1_load" "in_progress" "t4" {},
       .updStage "1_load" "completed" "t4" {}])

/-- C2, counterexample: `current_stage` is 3 after completing stages
1–3, and drops back to 1 after stage 1 is re-run to completion — so
"current_stage only increases" is false of the code. -/
theorem C2_counterexample :
    stC2pre.map (fun st => st.pipeline.current_stage) = some 3 ∧
    stC2post.map (fun st => st.pipeline.current_stage) = some 1 := by
  exact ⟨rfl, rfl⟩

/-- C2 (amended): across state-store operations, `current_stage` changes
only on `update_stage` with status `completed`, and then it becomes the
numeric prefix of the completed stage's key, whose record is
`completed` in the new state; it is not monotone — re-completing an
earlier stage lowers it. -/
theorem C2_amended (st : ProjectState) (key status now : String) (extra : Extra)
    (st' : ProjectState) (h : update_stage st key status now extra = some st') :
    (status ≠ "completed" →
      st'.pipeline.current_stage = st.pipeline.current_stage) ∧
    (status = "completed" →
      parseStageNum key = some st'.pipeline.current_stage ∧
      get_stage_status st' key = some "completed") := by
  constructor
  · intro hs
    exact update_stage_current_of_ne st key status now extra hs h
  · intro hs
    subst hs
    exact update_stage_current_of_completed st key now extra h

/-- Witness for C2 (amended): completing stage 2 on a fresh project. -/
theorem C2_amended_witness :
    ∃ st', update_stage (create_new "p" (Json.obj []) "t0") "2_format"
        "completed" "t1" ({} : Extra) = some st' ∧
      ((("completed" : String) ≠ "completed" →
        st'.pipeline.current_stage =
          (create_new "p" (Json.obj []) "t0").pipeline.current_stage) ∧
      (("completed" : String) = "completed" →
        parseStageNum "2_format" = some st'.pipeline.current_stage ∧
        get_stage_status st' "2_format" = some "completed")) := by
  refine ⟨_, rfl, ?_⟩
  exact C2_amended (create_new "p" (Json.obj []) "t0") "2_format" "completed"
    "t1" {} _ rfl

/-! ## Claim C9 -/

/-- C9, counterexample: completing a stage record twice (a re-run of an
already completed stage) overwrites the completion timestamp, so "the
completion timestamp is set exactly once" is false of the code; the
first completion stamped `t1`, the second replaced it with `t2`. -/
theorem C9_counterexample :
    (updRecord ({ status := "pending" } : StageRec) "completed" "t1" {}).completed_at
      = some "t1" ∧
    (updRecord (updRecord ({ status := "pending" } : StageRec) "completed" "t1" {})
        "completed" "t2" {}).completed_at = some "t2" := by
  exact ⟨rfl, rfl⟩

/-- C9 (amended): the start timestamp is set exactly once — on the first
transition to `in_progress`, and never modified once present (the
keyword arguments passed by the pipeline never carry timestamps); the
completion timestamp is set on *every* transition to `completed`, so a
re-completion overwrites it; and an update whose status is not
`completed` (in particular `error`) leaves `current_stage` unchanged. -/
theorem C9_amended (r : StageRec) (s n : String) (e : Extra) (t : String)
    (st : ProjectState) (key now : String) (st' : ProjectState) :
    (r.started_at = some t → (updRecord r s n e).started_at = some t) ∧
    (r.started_at = none → (updRecord r "in_progress" n e).started_at = some n) ∧
    ((updRecord r "completed" n e).completed_at = some n) ∧
    (s ≠ "completed" → update_stage st key s now e = some st' →
      st'.pipeline.current_stage = st.pipeline.current_stage) := by
  refine ⟨?_, ?_, updRecord_completed_at r n e, ?_⟩
  · intro h
    exact updRecord_started_at_some r s n e h
  · intro h
    exact updRecord_started_at_first r n e h
  · intro hs h
    exact update_stage_current_of_ne st key s now e hs h

/-- Witness for C9 (amended) on a concrete record and state. -/
theorem C9_amended_witness :
    (({ status := "in_progress", started_at := some "t0" } : StageRec).started_at
        = some "t0" →
      (updRecord ({ status := "in_progress", started_at := some "t0" } : StageRec)
        "error" "t5" {}).started_at = some "t0") ∧
    (({ status := "in_progress", started_at := some "t0" } : StageRec).started_at
        = none →
      (updRecord ({ status := "in_progress", started_at := some "t0" } : StageRec)
        "in_progress" "t5" {}).started_at = some "t5") ∧
    ((updRecord ({ status := "in_progress", started_at := some "t0" } : StageRec)
        "completed" "t5" {}).completed_at = some "t5") ∧
    (("error" : String) ≠ "completed" →
      update_stage (create_new "p" (Json.obj []) "t0") "3_compare" "error" "t5"
          ({} : Extra) = some ((update_stage (create_new "p" (Json.obj []) "t0")
            "3_compare" "error" "t5" ({} : Extra)).getD
              (create_new "p" (Json.obj []) "t0")) →
      ((update_stage (create_new "p" (Json.obj []) "t0") "3_compare" "error" "t5"
          ({} : Extra)).getD (create_new "p" (Json.obj []) "t0")).pipeline.current_stage
        = (create_new "p" (Json.obj []) "t0").pipeline.current_stage) :=
  C9_amended ({ status := "in_progress", started_at := some "t0" } : StageRec)
    "error" "t5" {} "t0" (create_new "p" (Json.obj []) "t0") "3_compare" "t5"
    ((update_stage (create_new "p" (Json.obj []) "t0") "3_compare" "error" "t5"
      ({} : Extra)).getD (create_new "p" (Json.obj []) "t0"))

/-! ## Claim C3 -/

/-- C3, counterexample: stage 4's `execute` *reports* a failure (invalid
plan structure — the response lacks `sections`) instead of raising;
`run` then returns the failed result but leaves the stage record in
status `in_progress` with no error message recorded, not `error` —
refuting "whenever run() does not succeed ... the stage's state record
is set to status error with the failure message". -/
theorem C3_counterexample :
    (runStage (create_new "p" (Json.obj []) "t0") "4_plan"
        (planExecute "\x7b\"title\": \"T\"\x7d" 42) "t1").map
      (fun p =>
        (p.1.success, p.1.error, get_stage_status p.2 "4_plan",
         (assocGet p.2.pipeline.stages "4_plan").map (fun r => r.error_message))) =
    some (false, some "Invalid plan structure returned by LLM",
          some "in_progress", some none) := by
  rfl

/-- C3 (amended): `run` never lets a failure escape as an exception
(it is a total function of the outcome), and when `execute()` *raises*,
the record is set to `error` with the failure message and a failed
result is returned; but when `execute()` *returns* a failed result,
`run` passes it through unchanged and the record stays `in_progress`
(no `error` status, no recorded message). -/
theorem update_stage_error_message (st : ProjectState) (key status now : String)
    (extra : Extra) {m : String} (he : extra.error_message = some m)
    {st' : ProjectState} (h : update_stage st key status now extra = some st') :
    (assocGet st'.pipeline.stages key).map (fun rec => rec.error_message) =
      some (some m) := by
  simp only [update_stage] at h
  revert h
  cases parseStageNum key with
  | none => intro h; cases h
  | some nk =>
    intro h
    cases h
    simp only [assocGet_assocSet_self, Option.map_some']
    rw [updRecord_error_message _ _ _ _ he]

theorem C3_amended (st : ProjectState) (key m now : String) (r : StageResult)
    {nk : Nat} (hk : parseStageNum key = some nk) :
    (∃ res st', runStage st key (.raises m) now = some (res, st') ∧
      res.success = false ∧ res.error = some m ∧
      get_stage_status st' key = some "error" ∧
      (assocGet st'.pipeline.stages key).map (fun rec => rec.error_message) =
        some (some m)) ∧
    (r.success = false →
      ∃ st', runStage st key (.ok r) now = some (r, st') ∧
        get_stage_status st' key = some "in_progress") := by
  constructor
  · obtain ⟨st1, h1⟩ : ∃ st1,
        update_stage st key "in_progress" now ({} : Extra) = some st1 :=
      ⟨_, update_stage_some st key "in_progress" now {} hk⟩
    obtain ⟨st2, h2⟩ : ∃ st2,
        update_stage st1 key "error" now
          ({ error_message := some m } : Extra) = some st2 :=
      ⟨_, update_stage_some st1 key "error" now _ hk⟩
    refine ⟨({ success := false, error := some m } : StageResult), st2, ?_, rfl, rfl,
      update_stage_status _ _ _ _ _ h2,
      update_stage_error_message _ _ _ _ _ rfl h2⟩
    simp only [runStage, h1, h2]
  · intro hr
    obtain ⟨st1, h1⟩ : ∃ st1,
        update_stage st key "in_progress" now ({} : Extra) = some st1 :=
      ⟨_, update_stage_some st key "in_progress" now {} hk⟩
    refine ⟨st1, ?_, update_stage_status _ _ _ _ _ h1⟩
    simp [runStage, h1, hr]

/-- Witness for C3 (amended) at stage 4 on a fresh project, with the
reported-failure branch instantiated by the invalid-plan result. -/
theorem C3_amended_witness :
    (∃ res st', runStage (create_new "p" (Json.obj []) "t0") "4_plan"
        (.raises "Input file not found") "t1" = some (res, st') ∧
      res.success = false ∧ res.error = some "Input file not found" ∧
      get_stage_status st' "4_plan" = some "error" ∧
      (assocGet st'.pipeline.stages "4_plan").map (fun rec => rec.error_message) =
        some (some "Input file not found")) ∧
    (({ success := false,
        error := some "Invalid plan structure returned by LLM" } : StageResult).success
          = false →
      ∃ st', runStage (create_new "p" (Json.obj []) "t0") "4_plan"
          (.ok { success := false,
                 error := some "Invalid plan structure returned by LLM" }) "t1" =
          some ({ success := false,
                  error := some "Invalid plan structure returned by LLM" }, st') ∧
        get_stage_status st' "4_plan" = some "in_progress") :=
  C3_amended (create_new "p" (Json.obj []) "t0") "4_plan" "Input file not found"
    "t1" { success := false, error := some "Invalid plan structure returned by LLM" }
    rfl

/-! ## Claim C4 -/

/-- C4 (code bug): the record keys the ten stages actually update are
derived from each class's `stage_name` via `BaseStage.stage_key`; for
stages 5, 7 and 8 (`05_write_section`, `07_literary_edit`,
`08_marketing_analysis`) the derived keys `5_write_section`,
`7_literary_edit`, `8_marketing_analysis` differ from the keys
`5_write`, `7_edit`, `8_analyze` seeded by `create_new`, so the first
`update_stage` of a stage-5 run adds an eleventh key to
`pipeline.stages` (and the seeded `5_write` record stays `pending`
forever) — the claim (and the code's own seeding/docstrings) says the
ten seeded keys never change. -/
theorem C4_key_mismatch :
    stageConfigs.map stage_key_of =
      ["1_load", "2_format", "3_compare", "4_plan", "5_write_section",
       "6_merge", "7_literary_edit", "8_marketing_analysis", "9_select",
       "10_generate"] ∧
    initialStages.map Prod.fst =
      ["1_load", "2_format", "3_compare", "4_plan", "5_write",
       "6_merge", "7_edit", "8_analyze", "9_select", "10_generate"] ∧
    (initialStages.map Prod.fst).contains (stage_key_of WriteStage) = false ∧
    (update_stage (create_new "p" (Json.obj []) "t0") (stage_key_of WriteStage)
        "in_progress" "t1" {}).map (fun st => st.pipeline.stages.map Prod.fst) =
      some ["1_load", "2_format", "3_compare", "4_plan", "5_write",
            "6_merge", "7_edit", "8_analyze", "9_select", "10_generate",
            "5_write_section"] := by
  exact ⟨rfl, rfl, rfl, rfl⟩

/-! ## Claim C5 -/

/-- C5, counterexample: `save` re-stamps `updated_at` before writing, so
the loaded state differs from the state before saving in `updated_at`
whenever the save time differs from the old stamp — "equal in all
fields" is false of the code. -/
theorem C5_counterexample :
    (load (save (create_new "p" (Json.obj []) "2024-01-01T00:00:00")
        "2024-01-02T00:00:00")).map (fun st => st.updated_at) =
      some "2024-01-02T00:00:00" ∧
    (create_new "p" (Json.obj []) "2024-01-01T00:00:00").updated_at =
      "2024-01-01T00:00:00" ∧
    ("2024-01-02T00:00:00" : String) ≠ "2024-01-01T00:00:00" := by
  exact ⟨rfl, rfl, by decide⟩

/-- C5 (amended): `save` then `load` yields exactly the state before
saving with its `updated_at` replaced by the save time — every other
field, including the nested stage records and the statistics, round-trips
unchanged. -/
theorem C5_amended (st : ProjectState) (now : String) :
    load (save st now) = some { st with updated_at := now } := by
  unfold load save
  exact projectStateOfJson_roundtrip _

/-! ## Substrings and the stage-5 context-growth claim -/

/-- Substring relation: `a` occurs verbatim inside `b`. -/
def Substr (a b : String) : Prop :=
  ∃ pre suf, b.data = pre ++ a.data ++ suf

theorem substr_refl (a : String) : Substr a a :=
  ⟨[], [], by simp⟩

theorem substr_append_left (c : String) {a b : String} (h : Substr a b) :
    Substr a (c ++ b) := by
  obtain ⟨pre, suf, hb⟩ := h
  exact ⟨c.data ++ pre, suf, by rw [String.data_append, hb]; simp⟩

theorem substr_append_right (c : String) {a b : String} (h : Substr a b) :
    Substr a (b ++ c) := by
  obtain ⟨pre, suf, hb⟩ := h
  exact ⟨pre, suf ++ c.data, by rw [String.data_append, hb]; simp⟩

theorem substr_trans {a b c : String} (hab : Substr a b) (hbc : Substr b c) :
    Substr a c := by
  obtain ⟨p1, s1, hb⟩ := hab
  obtain ⟨p2, s2, hc⟩ := hbc
  exact ⟨p2 ++ p1, s1 ++ s2, by rw [hc, hb]; simp⟩

/-- Every member of a joined list occurs in the join. -/
theorem substr_joinSep {e : String} (sep : String) :
    ∀ {l : List String}, e ∈ l → Substr e (joinSep sep l) := by
  intro l
  induction l with
  | nil => intro h; cases h
  | cons x rest ih =>
    intro h
    rcases List.mem_cons.mp h with rfl | hmem
    · cases rest with
      | nil => exact substr_refl e
      | cons y ys =>
        show Substr e (e ++ sep ++ joinSep sep (y :: ys))
        exact substr_append_right _ (substr_append_right _ (substr_refl e))
    · cases rest with
      | nil => cases hmem
      | cons y ys =>
        show Substr e (x ++ sep ++ joinSep sep (y :: ys))
        exact substr_append_left _ (ih hmem)

theorem substr_sectionLabel (i : Nat) (x : String) :
    Substr x (sectionLabel i x) := by
  refine ⟨("## Секция " ++ toString (i + 1) ++ "\n").data, [], ?_⟩
  simp [sectionLabel, String.data_append]

/-- Any text found at an index of the previous-sections list occurs
verbatim in the `prev_text` block of the prompt. -/
theorem substr_prevBlock {texts : List String} {j : Nat} {x : String}
    (h : texts.get? j = some x) : Substr x (prevSectionsBlock texts) := by
  have hne : ¬ texts.isEmpty := by
    cases texts with
    | nil => simp at h
    | cons t ts => simp
  unfold prevSectionsBlock
  rw [if_neg hne]
  have henum : (texts.enum).get? j = some (j, x) := by
    rw [show texts.enum = List.enumFrom 0 texts from rfl, List.get?_enumFrom, h]
    simp
  have hmap : ((texts.enum).map (fun p => sectionLabel p.1 p.2)).get? j =
      some (sectionLabel j x) := by
    rw [List.get?_map, henum]
    rfl
  have hmem := List.get?_mem hmap
  exact substr_trans (substr_sectionLabel j x) (substr_joinSep _ hmem)

/-- The `prev_text` block occurs verbatim in the full section prompt. -/
theorem substr_prevBlock_prompt (sec : PlanSection) (n tot : Nat)
    (t : String) (plan : ArticlePlan) (prev : List String) :
    Substr (prevSectionsBlock prev) (build_section_prompt sec n tot t plan prev) := by
  unfold build_section_prompt
  refine substr_append_right _ ?_
  refine substr_append_right _ ?_
  refine substr_append_right _ ?_
  refine substr_append_right _ ?_
  refine substr_append_right _ ?_
  refine substr_append_right _ ?_
  refine substr_append_right _ ?_
  refine substr_append_right _ ?_
  refine substr_append_right _ ?_
  refine substr_append_right _ ?_
  refine substr_append_right _ ?_
  refine substr_append_right _ ?_
  refine substr_append_right _ ?_
  refine substr_append_right _ ?_
  exact substr_append_left _ (substr_refl _)

/-- Position-wise description of the generation calls of one stage-5
run: the k-th call's prompt is built from the section at index k and the
responses of the calls before it. -/
theorem writeStep_spec (t : String) (p : ArticlePlan) (g : String → String) :
    ∀ (l : List PlanSection) (idx : Nat) (written : List String) (k : Nat)
      (sec : PlanSection), l.get? k = some sec →
    ∃ prompt,
      prompt = build_section_prompt sec (idx + k + 1) p.sections.length t p
        (written ++ ((writeStep t p g l idx written).take k).map Prod.snd) ∧
      (writeStep t p g l idx written).get? k = some (prompt, g prompt) := by
  intro l
  induction l with
  | nil => intro idx written k sec h; simp at h
  | cons s0 rest ih =>
    intro idx written k sec h
    cases k with
    | zero =>
      simp only [List.get?] at h
      injection h with h
      subst h
      exact ⟨_, by simp, rfl⟩
    | succ k =>
      simp only [List.get?] at h
      obtain ⟨prompt, hp, hg⟩ := ih (idx + 1)
        (written ++ [g (build_section_prompt s0 (idx + 1) p.sections.length t p written)])
        k sec h
      refine ⟨prompt, ?_, ?_⟩
      · rw [hp]
        congr 1
        · omega
        · simp only [writeStep, List.take_succ_cons, List.map_cons,
            List.append_assoc, List.singleton_append]
      · simpa only [writeStep, List.get?_cons_succ] using hg

/-- C6: in one run of stage 5, the prompt of the generation call for the
section at index `k` (the (k+1)-st section) is exactly
`_build_section_prompt` applied to the first `k` generated texts — so it
is a function of the plan, the transcript and the responses of calls
`1..k` only, and cannot contain the not-yet-generated text of section
`k+1`; moreover the text returned by every earlier call `j < k` occurs
verbatim inside that prompt (and for `k = 0` the previous-sections list
is empty).  The generation gateway is abstracted as a function `g` from
the prompt to the response text. -/
theorem C6_context_growth (transcript : String) (plan : ArticlePlan)
    (g : String → String) (k : Nat) (sec : PlanSection)
    (hsec : plan.sections.get? k = some sec) :
    ∃ prompt,
      ((writeTrace transcript plan g).map Prod.fst).get? k = some prompt ∧
      prompt = build_section_prompt sec (k + 1) plan.sections.length transcript plan
        (((writeTrace transcript plan g).map Prod.snd).take k) ∧
      ∀ j, j < k → ∃ resp_j,
        ((writeTrace transcript plan g).map Prod.snd).get? j = some resp_j ∧
        Substr resp_j prompt := by
  obtain ⟨prompt, hp, hg⟩ :=
    writeStep_spec transcript plan g plan.sections 0 [] k sec hsec
  refine ⟨prompt, ?_, ?_, ?_⟩
  · rw [List.get?_map, writeTrace, hg]
    rfl
  · rw [hp, writeTrace]
    simp [List.map_take]
  · intro j hj
    have hk : k < plan.sections.length := (List.get?_eq_some.mp hsec).1
    have hjlen : j < plan.sections.length := Nat.lt_trans hj hk
    obtain ⟨pj, hpj, hgj⟩ := writeStep_spec transcript plan g plan.sections 0 [] j
      (plan.sections.get ⟨j, hjlen⟩) (List.get?_eq_get hjlen)
    refine ⟨g pj, ?_, ?_⟩
    · rw [List.get?_map, writeTrace, hgj]
      rfl
    · have htake :
          ((([] : List String) ++
            ((writeStep transcript plan g plan.sections 0 []).take k).map
              Prod.snd)).get? j = some (g pj) := by
        rw [List.nil_append, List.get?_map, List.get?_take hj, hgj]
        rfl
      rw [hp]
      exact substr_trans (substr_prevBlock htake)
        (substr_prevBlock_prompt _ _ _ _ _ _)

def planW : ArticlePlan :=
  { title := "T",
    sections := [{ id := 1, title := "A", key_points := ["p1"] },
                 { id := 2, title := "B", key_points := ["p2"] }] }

def gW : String → String := fun _ => "SECTION-TEXT"

/-- Witness for C6 at a concrete two-section plan: the second section's
prompt is built from the first response and contains it. -/
theorem C6_context_growth_witness :
    planW.sections.get? 1 = some { id := 2, title := "B", key_points := ["p2"] } ∧
    (∃ prompt,
      ((writeTrace "tr" planW gW).map Prod.fst).get? 1 = some prompt ∧
      prompt = build_section_prompt { id := 2, title := "B", key_points := ["p2"] }
        (1 + 1) planW.sections.length "tr" planW
        (((writeTrace "tr" planW gW).map Prod.snd).take 1) ∧
      ∀ j, j < 1 → ∃ resp_j,
        ((writeTrace "tr" planW gW).map Prod.snd).get? j = some resp_j ∧
        Substr resp_j prompt) :=
  ⟨rfl, C6_context_growth "tr" planW gW 1 _ rfl⟩

/-! ## Claim C7 -/

/-- C7, counterexample: `_validate_plan` only checks that the `title`
and `key_points` keys are *present* in each section — it accepts (and
`execute` happily persists) a plan whose only section has an empty
title and an empty key-point list, violating the spec's ArticlePlan
invariant; so "persists a plan only when it satisfies the ArticlePlan
invariant" is false of the code. -/
theorem C7_counterexample :
    extract_json "\x7b\"title\": \"T\", \"sections\": [\x7b\"title\": \"\", \"key_points\": []\x7d]\x7d" =
      some (Json.obj [("title", Json.str "T"),
        ("sections", Json.arr [Json.obj [("title", Json.str ""),
          ("key_points", Json.arr [])]])]) ∧
    validate_plan (Json.obj [("title", Json.str "T"),
        ("sections", Json.arr [Json.obj [("title", Json.str ""),
          ("key_points", Json.arr [])]])]) = some true ∧
    specArticlePlanInvariant (Json.obj [("title", Json.str "T"),
        ("sections", Json.arr [Json.obj [("title", Json.str ""),
          ("key_points", Json.arr [])]])]) = false ∧
    planExecute "\x7b\"title\": \"T\", \"sections\": [\x7b\"title\": \"\", \"key_points\": []\x7d]\x7d" 7 =
      .ok { success := true, output_file := some "04_plan.json", tokens_used := 7,
            metadata := some [("sections_count", Json.num 1)] } := by
  exact ⟨rfl, rfl, rfl, rfl⟩

/-- C7 (amended): stage 4 persists a plan exactly when `_validate_plan`
accepts it — `title` and `sections` keys present, `sections` a
non-empty list, and every section carrying both a `title` and a
`key_points` key (their non-emptiness is *not* checked); when
validation rejects the plan, `execute` returns a failed result whose
message identifies invalid structure instead of raising; and the
claim's fenced-code-block example parses to a plan with title `"T"`
and exactly one section. -/
theorem C7_amended (response : String) (tokens : Nat) (p : Json)
    (hp : extract_json response = some p) :
    (validate_plan p = some true →
      planExecute response tokens =
        .ok { success := true, output_file := some "04_plan.json",
              tokens_used := tokens,
              metadata := some [("sections_count", Json.num (planSectionsCount p))] }) ∧
    (validate_plan p = some false →
      planExecute response tokens =
        .ok { success := false,
              error := some "Invalid plan structure returned by LLM" }) ∧
    (extract_json "```json\n\x7b\"title\":\"T\",\"sections\":[\x7b\"title\":\"S1\",\"key_points\":[\"a\"]\x7d]\x7d\n```" =
      some (Json.obj [("title", Json.str "T"),
        ("sections", Json.arr [Json.obj [("title", Json.str "S1"),
          ("key_points", Json.arr [Json.str "a"])]])]) ∧
      getItemStr (Json.obj [("title", Json.str "T"),
        ("sections", Json.arr [Json.obj [("title", Json.str "S1"),
          ("key_points", Json.arr [Json.str "a"])]])]) "title" =
        some (Json.str "T") ∧
      planSectionsCount (Json.obj [("title", Json.str "T"),
        ("sections", Json.arr [Json.obj [("title", Json.str "S1"),
          ("key_points", Json.arr [Json.str "a"])]])]) = 1) := by
  refine ⟨?_, ?_, rfl, rfl, rfl⟩
  · intro hv
    simp [planExecute, hp, hv]
  · intro hv
    simp [planExecute, hp, hv]

/-- Witness for C7 (amended) at the fenced example of the claim. -/
theorem C7_amended_witness :
    (extract_json "```json\n\x7b\"title\":\"T\",\"sections\":[\x7b\"title\":\"S1\",\"key_points\":[\"a\"]\x7d]\x7d\n```" =
      some (Json.obj [("title", Json.str "T"),
        ("sections", Json.arr [Json.obj [("title", Json.str "S1"),
          ("key_points", Json.arr [Json.str "a"])]])])) ∧
    (validate_plan (Json.obj [("title", Json.str "T"),
        ("sections", Json.arr [Json.obj [("title", Json.str "S1"),
          ("key_points", Json.arr [Json.str "a"])]])]) = some true →
      planExecute "```json\n\x7b\"title\":\"T\",\"sections\":[\x7b\"title\":\"S1\",\"key_points\":[\"a\"]\x7d]\x7d\n```" 9 =
        .ok { success := true, output_file := some "04_plan.json", tokens_used := 9,
              metadata := some [("sections_count",
                Json.num (planSectionsCount (Json.obj [("title", Json.str "T"),
                  ("sections", Json.arr [Json.obj [("title", Json.str "S1"),
                    ("key_points", Json.arr [Json.str "a"])]])])))] }) :=
  ⟨rfl,
   (C7_amended "```json\n\x7b\"title\":\"T\",\"sections\":[\x7b\"title\":\"S1\",\"key_points\":[\"a\"]\x7d]\x7d\n```"
     9 (Json.obj [("title", Json.str "T"),
       ("sections", Json.arr [Json.obj [("title", Json.str "S1"),
         ("key_points", Json.arr [Json.str "a"])]])]) rfl).1⟩

/-! ## Claim C8 -/

/-- Manager state with all three tiers present for `02_format`. -/
def pmC8 : PromptManagerState :=
  { prompts_files := [("02_format.md", "CUSTOM TEXT")],
    project_files := some [("02_format.md", "PROJECT TEXT")],
    cache := [] }

/-- C8, counterexample: with a project override, an installation
override and the built-in default all present, resolution returns the
project text; but the deletion operation `reset_to_default` deletes the
overrides at *both* scopes, so the next resolution returns the built-in
default — not the installation-scoped text as the claim states. -/
theorem C8_counterexample :
    ∃ info1 pm1, get_prompt_info pmC8 "02_format" = some (info1, pm1) ∧
      info1.content = "PROJECT TEXT" ∧ info1.source = "project" ∧
      (reset_to_default pm1 "02_format").1 = true ∧
      ∃ info2 pm2,
        get_prompt_info (reset_to_default pm1 "02_format").2 "02_format" =
          some (info2, pm2) ∧
        info2.source = "default" ∧
        info2.content = "# Системный промпт: Форматирование транскрипции" ∧
        info2.content ≠ "CUSTOM TEXT" := by
  exact ⟨_, _, rfl, rfl, rfl, rfl, _, _, rfl, rfl, rfl, by decide⟩

/-- C8 (amended): with a project-scoped override, an installation-scoped
override and a built-in default all present for `02_format`, resolution
returns the project-scoped text; `reset_to_default` (the manager's
deletion operation) removes the override files at both scopes and
clears the cache, so it reports a deletion and the next resolution
returns the built-in default text. -/
theorem C8_amended (pm : PromptManagerState) (projText custText : String)
    (hpm : pm = { prompts_files := [("02_format.md", custText)],
                  project_files := some [("02_format.md", projText)],
                  cache := [] }) :
    ∃ pm1, get_prompt_info pm "02_format" =
        some ({ content := projText, source := "project",
                file_path := some "<project_dir>/prompts/02_format.md" }, pm1) ∧
      (reset_to_default pm1 "02_format").1 = true ∧
      ∃ pm2, get_prompt_info (reset_to_default pm1 "02_format").2 "02_format" =
        some ({ content := "# Системный промпт: Форматирование транскрипции",
                source := "default", file_path := none }, pm2) := by
  subst hpm
  exact ⟨_, rfl, rfl, _, rfl⟩

/-- Witness for C8 (amended) at concrete override texts. -/
theorem C8_amended_witness :
    ∃ pm1, get_prompt_info
        ({ prompts_files := [("02_format.md", "C")],
           project_files := some [("02_format.md", "P")],
           cache := [] } : PromptManagerState) "02_format" =
        some ({ content := "P", source := "project",
                file_path := some "<project_dir>/prompts/02_format.md" }, pm1) ∧
      (reset_to_default pm1 "02_format").1 = true ∧
      ∃ pm2, get_prompt_info (reset_to_default pm1 "02_format").2 "02_format" =
        some ({ content := "# Системный промпт: Форматирование транскрипции",
                source := "default", file_path := none }, pm2) :=
  C8_amended _ "P" "C" rfl

/-! ## Claim C10 -/

/-- C10: the stage-1 text normalization is idempotent — a second
application of `normalize_text` changes nothing: line endings are
already normalized, blank-line runs already collapsed, and the ends
already stripped. -/
theorem C10_normalize_idempotent (s : String) :
    normalize_text (normalize_text s) = normalize_text s := by
  show String.mk (stripList (collapseNl (replaceCR (replaceCRLF
      (stripList (collapseNl (replaceCR (replaceCRLF s.data)))))))) = _
  rw [C10_core _ ⟨replaceCRLF s.data, rfl⟩]
  rfl

end Krabi
